import Mathlib

set_option maxRecDepth 8000

/-!
Verification of the activity search/filter service.

The development shallowly embeds the three Python modules of the repository:

* `search_engine.py` — the `SearchEngine` class (inverted index, free-text
  search with AND semantics, structured filters, relevance ranking, recent
  searches, autocomplete suggestions);
* `filters.py` — the `FilterManager` class (filter validation);
* `app.py` — the HTTP-facing handlers (`search_activities`,
  `signup_for_activity`, `unregister_from_activity`) and the default
  in-memory catalog.

Python dictionaries are embedded as association lists in insertion order,
Python sets as `Finset`, optional/absent dictionary keys as `Option`, and
the float relevance score as correctly-rounded IEEE-754 binary64 values
(represented as integers scaled by 2^1074, see the `fround` section).
Stateful methods return the updated state explicitly.
-/

/- ## Text helpers (embeddings of the Python string primitives used) -/

/-- Models Python `s.lower()` (the source strings are ASCII, where
`Char.toLower` and `str.lower` agree). -/
def pyLower (s : String) : String := ⟨s.data.map Char.toLower⟩

/-- Models Python substring containment `pat in hay` for strings. -/
def strContains (hay pat : String) : Bool :=
  (List.range (hay.data.length + 1)).any (fun i => pat.data.isPrefixOf (hay.data.drop i))

/-- Models Python `s.startswith(t)`. -/
def strStartsWith (s t : String) : Bool := t.data.isPrefixOf s.data

/-- Helper for `pySplit`: walks the characters with an accumulator holding the
current (reversed) in-progress word. -/
def pySplitAux : List Char → List Char → List String
  | [], acc => if acc.isEmpty then [] else [⟨acc.reverse⟩]
  | c :: cs, acc =>
    if c.isWhitespace then
      if acc.isEmpty then pySplitAux cs [] else ⟨acc.reverse⟩ :: pySplitAux cs []
    else
      pySplitAux cs (c :: acc)

/-- Models Python `s.split()` with no argument: split on runs of whitespace,
producing no empty words. -/
def pySplit (s : String) : List String := pySplitAux s.data []

/-- Models Python `not s.strip()`: `True` exactly when every character of `s`
is whitespace. -/
def isBlank (s : String) : Bool := s.data.all Char.isWhitespace

/-- Models Python `s.capitalize()`: first character uppercased, the rest
lowercased. -/
def pyCapitalize (s : String) : String :=
  match s.data with
  | [] => ""
  | c :: cs => ⟨Char.toUpper c :: cs.map Char.toLower⟩

/- ## Stable sorting by key

Python's `sorted(xs, key=k)` is the unique stable ascending sort by `k`;
`sorted(xs, key=k, reverse=True)` is the unique stable descending sort by
`k` (ties keep their original relative order in both cases).  They are
embedded as stable insertion sorts. -/

/-- Inserts `x` after every element whose key is strictly smaller, so that an
element inserted later (i.e. occurring earlier in the input) lands before
equal-keyed elements: stable ascending insertion. -/
def insertAsc {α K : Type} [LinearOrder K] (k : α → K) (x : α) : List α → List α
  | [] => [x]
  | y :: ys => if k y < k x then y :: insertAsc k x ys else x :: y :: ys

/-- Models Python `sorted(xs, key=k)`: the stable ascending sort by `k`. -/
def sortAsc {α K : Type} [LinearOrder K] (k : α → K) : List α → List α
  | [] => []
  | x :: xs => insertAsc k x (sortAsc k xs)

/-- Inserts `x` after every element whose key is strictly larger: stable
descending insertion. -/
def insertDesc {α K : Type} [LinearOrder K] (k : α → K) (x : α) : List α → List α
  | [] => [x]
  | y :: ys => if k x < k y then y :: insertDesc k x ys else x :: y :: ys

/-- Models Python `sorted(xs, key=k, reverse=True)`: the stable descending
sort by `k`. -/
def sortDesc {α K : Type} [LinearOrder K] (k : α → K) : List α → List α
  | [] => []
  | x :: xs => insertDesc k x (sortDesc k xs)

section SortLemmas

variable {α K : Type} [LinearOrder K] (k : α → K)

theorem insertAsc_perm (x : α) (l : List α) :
    List.Perm (insertAsc k x l) (x :: l) := by
  induction l with
  | nil => simp [insertAsc]
  | cons y ys ih =>
    simp only [insertAsc]
    split
    · exact (ih.cons y).trans (List.Perm.swap x y ys)
    · exact List.Perm.refl _

theorem sortAsc_perm (l : List α) : List.Perm (sortAsc k l) l := by
  induction l with
  | nil => simp [sortAsc]
  | cons x xs ih => exact (insertAsc_perm k x (sortAsc k xs)).trans (ih.cons x)

theorem insertDesc_perm (x : α) (l : List α) :
    List.Perm (insertDesc k x l) (x :: l) := by
  induction l with
  | nil => simp [insertDesc]
  | cons y ys ih =>
    simp only [insertDesc]
    split
    · exact (ih.cons y).trans (List.Perm.swap x y ys)
    · exact List.Perm.refl _

theorem sortDesc_perm (l : List α) : List.Perm (sortDesc k l) l := by
  induction l with
  | nil => simp [sortDesc]
  | cons x xs ih => exact (insertDesc_perm k x (sortDesc k xs)).trans (ih.cons x)

theorem insertAsc_pairwise (x : α) (l : List α)
    (h : l.Pairwise (fun a b => k a ≤ k b)) :
    (insertAsc k x l).Pairwise (fun a b => k a ≤ k b) := by
  induction l with
  | nil => simp [insertAsc]
  | cons y ys ih =>
    rcases List.pairwise_cons.mp h with ⟨hy, hys⟩
    simp only [insertAsc]
    split
    · rename_i hlt
      refine List.pairwise_cons.mpr ⟨?_, ih hys⟩
      intro b hb
      have hb' := (List.Perm.mem_iff (insertAsc_perm k x ys)).mp hb
      rcases List.mem_cons.mp hb' with rfl | hmem
      · exact le_of_lt hlt
      · exact hy b hmem
    · rename_i hge
      refine List.pairwise_cons.mpr ⟨?_, h⟩
      intro b hb
      rcases List.mem_cons.mp hb with rfl | hmem
      · exact le_of_not_lt hge
      · exact le_trans (le_of_not_lt hge) (hy b hmem)

theorem sortAsc_pairwise (l : List α) :
    (sortAsc k l).Pairwise (fun a b => k a ≤ k b) := by
  induction l with
  | nil => simp [sortAsc]
  | cons x xs ih => exact insertAsc_pairwise k x (sortAsc k xs) ih

theorem insertDesc_pairwise (x : α) (l : List α)
    (h : l.Pairwise (fun a b => k b ≤ k a)) :
    (insertDesc k x l).Pairwise (fun a b => k b ≤ k a) := by
  induction l with
  | nil => simp [insertDesc]
  | cons y ys ih =>
    rcases List.pairwise_cons.mp h with ⟨hy, hys⟩
    simp only [insertDesc]
    split
    · rename_i hlt
      refine List.pairwise_cons.mpr ⟨?_, ih hys⟩
      intro b hb
      have hb' := (List.Perm.mem_iff (insertDesc_perm k x ys)).mp hb
      rcases List.mem_cons.mp hb' with rfl | hmem
      · exact le_of_lt hlt
      · exact hy b hmem
    · rename_i hge
      refine List.pairwise_cons.mpr ⟨?_, h⟩
      intro b hb
      rcases List.mem_cons.mp hb with rfl | hmem
      · exact le_of_not_lt hge
      · exact le_trans (hy b hmem) (le_of_not_lt hge)

theorem sortDesc_pairwise (l : List α) :
    (sortDesc k l).Pairwise (fun a b => k b ≤ k a) := by
  induction l with
  | nil => simp [sortDesc]
  | cons x xs ih => exact insertDesc_pairwise k x (sortDesc k xs) ih

theorem insertAsc_filter_key [DecidableEq K] (x : α) (l : List α) (c : K) :
    (insertAsc k x l).filter (fun a => decide (k a = c)) =
      (if k x = c then [x] else []) ++ l.filter (fun a => decide (k a = c)) := by
  induction l with
  | nil =>
    simp only [insertAsc, List.filter]
    split <;> simp_all
  | cons y ys ih =>
    simp only [insertAsc]
    split
    · rename_i hlt
      by_cases hyc : k y = c
      · by_cases hxc : k x = c
        · have : k x < k x := by
            calc k x = c := hxc
            _ = k y := hyc.symm
            _ < k x := hlt
          exact absurd this (lt_irrefl _)
        · have hyb : (decide (k y = c)) = true := by simp [hyc]
          simp [List.filter_cons, hyb, ih, if_neg hxc]
      · have hyb : (decide (k y = c)) = false := by simp [hyc]
        simp [List.filter_cons, hyb, ih]
    · by_cases hxc : k x = c <;> simp [List.filter_cons, hxc]

theorem sortAsc_filter_key [DecidableEq K] (l : List α) (c : K) :
    (sortAsc k l).filter (fun a => decide (k a = c)) = l.filter (fun a => decide (k a = c)) := by
  induction l with
  | nil => rfl
  | cons x xs ih =>
    simp only [sortAsc, insertAsc_filter_key, ih, List.filter_cons]
    by_cases hxc : k x = c <;> simp [hxc]

theorem insertDesc_filter_key [DecidableEq K] (x : α) (l : List α) (c : K) :
    (insertDesc k x l).filter (fun a => decide (k a = c)) =
      (if k x = c then [x] else []) ++ l.filter (fun a => decide (k a = c)) := by
  induction l with
  | nil =>
    simp only [insertDesc, List.filter]
    split <;> simp_all
  | cons y ys ih =>
    simp only [insertDesc]
    split
    · rename_i hlt
      by_cases hyc : k y = c
      · by_cases hxc : k x = c
        · have : k x < k x := by
            calc k x < k y := hlt
            _ = c := hyc
            _ = k x := hxc.symm
          exact absurd this (lt_irrefl _)
        · have hyb : (decide (k y = c)) = true := by simp [hyc]
          simp [List.filter_cons, hyb, ih, if_neg hxc]
      · have hyb : (decide (k y = c)) = false := by simp [hyc]
        simp [List.filter_cons, hyb, ih]
    · by_cases hxc : k x = c <;> simp [List.filter_cons, hxc]

theorem sortDesc_filter_key [DecidableEq K] (l : List α) (c : K) :
    (sortDesc k l).filter (fun a => decide (k a = c)) = l.filter (fun a => decide (k a = c)) := by
  induction l with
  | nil => rfl
  | cons x xs ih =>
    simp only [sortDesc, insertDesc_filter_key, ih, List.filter_cons]
    by_cases hxc : k x = c <;> simp [hxc]

end SortLemmas

/- ## IEEE-754 binary64 arithmetic

CPython floats are IEEE-754 binary64 values.  Every finite double is an
integer multiple of `2 ^ (-1074)` (the smallest subnormal), so a double
value `v` is represented here as the integer `v * 2 ^ 1074`.  `fround`
rounds an exact rational `num / den` to the nearest double
(round-to-nearest, ties-to-even), covering normal and subnormal results;
magnitudes at or above `2 ^ 1024` are kept exact rather than becoming
infinite — CPython raises `OverflowError` converting such an integer to
float, so they lie outside the modelled domain. -/

/-- Floor of the base-2 logarithm for `n < 2 ^ 64` (fuel-driven halving). -/
def small_log2 : Nat → Nat → Nat
  | 0, _ => 0
  | fuel+1, n => if 2 ≤ n then small_log2 fuel (n / 2) + 1 else 0

/-- Fuel-driven floor base-2 logarithm, 64 bits per step; `fuel = n` always
suffices since a positive `n` has at most `n` bits. -/
def log2_aux : Nat → Nat → Nat
  | 0, _ => 0
  | fuel+1, n => if 1 <<< 64 ≤ n then log2_aux fuel (n >>> 64) + 64 else small_log2 64 n

/-- Floor of the base-2 logarithm of a positive natural. -/
def nat_log2 (n : Nat) : Nat := log2_aux n n

/-- Decides `2 ^ e ≤ n / den` without leaving the naturals. -/
def le_pow2 (n den : Nat) (e : Int) : Bool :=
  if 0 ≤ e then den <<< e.toNat ≤ n else den ≤ n <<< (-e).toNat

/-- Rounds the exact rational `num / den` (with `den > 0`) to the nearest
IEEE-754 binary64 value, ties to even, returning the double scaled by
`2 ^ 1074`.  The unit in the last place is `2 ^ (e - 52)` for a magnitude in
`[2 ^ e, 2 ^ (e+1))`, floored at `2 ^ (-1074)` for subnormal results. -/
def fround (num : Int) (den : Nat) : Int :=
  if num = 0 then 0
  else
    let s : Int := if 0 ≤ num then 1 else -1
    let n : Nat := num.natAbs
    let e0 : Int := (nat_log2 n : Int) - (nat_log2 den : Int)
    let e : Int := if le_pow2 n den e0 then e0 else e0 - 1
    let ulp : Int := max (e - 52) (-1074)
    let (a, b) : Nat × Nat :=
      if 0 ≤ ulp then (n, den <<< ulp.toNat) else (n <<< (-ulp).toNat, den)
    let qt := a / b
    let r := a % b
    let k : Nat :=
      if b < 2 * r then qt + 1
      else if 2 * r < b then qt
      else if qt % 2 = 0 then qt else qt + 1
    s * ((k <<< (ulp + 1074).toNat : Nat) : Int)

/-- Double addition (both arguments and the result scaled by `2 ^ 1074`):
the exact sum rounded to the nearest double. -/
def f64_add (x y : Int) : Int := fround (x + y) (1 <<< 1074)

/-- Double multiplication (scaled by `2 ^ 1074`): the exact product, at
scale `2 ^ 2148`, rounded to the nearest double. -/
def f64_mul (x y : Int) : Int := fround (x * y) (1 <<< 2148)

/-- Conversion of a Python int to a double (CPython rounds to nearest). -/
def f64_of_int (p : Int) : Int := fround p 1

/-- The double literal `0.1` of the source (not exactly one tenth). -/
def f64_tenth : Int := fround 1 10

/- ## `search_engine.py`: data model

An activity record is a Python dict; the fields below are exactly the keys
the module reads.  `Option` marks keys read without a default
(`activity.get(k)`), so that an absent key is `none`; keys always read with
a default (`name`, `description` with `''`, `popularity` with `0`) are
plain fields with the absent key identified with the default.
`participants` and `max_participants` are carried for the catalog records
even though `SearchEngine` itself never reads them. -/

structure Activity where
  id : Option String
  name : String
  description : String
  category : Option String
  schedule : Option String
  tags : List String
  available : Option Bool
  popularity : Int
  max_participants : Nat
  participants : List String
deriving DecidableEq

/-- Filter dictionary accepted by `SearchEngine._apply_filters`: a field is
`some v` when the key is present with value `v` and `none` when absent. -/
structure Filters where
  category : Option String := none
  availability : Option Bool := none
  schedule : Option String := none
  min_popularity : Option Int := none
deriving DecidableEq

/-- Models Python truthiness of the filter dict (`if filters:`): a dict of
the recognized keys is truthy exactly when it is non-empty. -/
def Filters.isTruthy (f : Filters) : Bool :=
  f.category.isSome || f.availability.isSome || f.schedule.isSome ||
    f.min_popularity.isSome

/-- State of a `SearchEngine` instance: the activity list, the inverted
index (a dict in insertion order, each word mapping to its posting set), and
the recent-search list. -/
structure SearchEngine where
  activities : List Activity
  search_index : List (String × Finset (Option String))
  recent_searches : List String

namespace SearchEngine

/-- Models `self.search_index.get(word, set())`. -/
def lookupPostings (idx : List (String × Finset (Option String))) (word : String) :
    Finset (Option String) :=
  ((idx.find? (fun p => p.1 == word)).map Prod.snd).getD ∅

/-- Models `SearchEngine._create_searchable_text`: joins the non-empty
searchable fields with single spaces (`filter(None, …)` drops empty
strings). -/
def create_searchable_text (a : Activity) : String :=
  String.intercalate " "
    (([a.name, a.description, a.category.getD "", String.intercalate " " a.tags]).filter
      (fun s => s != ""))

/-- Adds `id` to `word`'s posting set, creating the entry (at the end, as
dict insertion does) when the word is new. -/
def addPosting (idx : List (String × Finset (Option String))) (word : String)
    (id : Option String) : List (String × Finset (Option String)) :=
  if idx.any (fun p => p.1 == word) then
    idx.map (fun p => if p.1 == word then (p.1, insert id p.2) else p)
  else
    idx ++ [(word, {id})]

/-- Models `SearchEngine.index_activity`. -/
def index_activity (st : SearchEngine) (a : Activity) : SearchEngine :=
  let words := pySplit (pyLower (create_searchable_text a))
  { st with search_index := words.foldl (fun idx w => addPosting idx w a.id) st.search_index }

/-- Models `SearchEngine._find_matching_ids`: the intersection of the posting
sets of the query words, empty for an empty word list. -/
def find_matching_ids (idx : List (String × Finset (Option String)))
    (query_words : List String) : Finset (Option String) :=
  match query_words with
  | [] => ∅
  | w :: ws => ws.foldl (fun s word => s ∩ lookupPostings idx word) (lookupPostings idx w)

/-- Models `SearchEngine._apply_filters`: the four recognized criteria applied
in sequence, each only when its key is present. -/
def apply_filters (acts : List Activity) (f : Filters) : List Activity :=
  let l1 := match f.category with
    | some c => acts.filter (fun a => a.category == some c)
    | none => acts
  let l2 := match f.availability with
    | some b => l1.filter (fun a => a.available == some b)
    | none => l1
  let l3 := match f.schedule with
    | some s => l2.filter (fun a => a.schedule == some s)
    | none => l2
  match f.min_popularity with
  | some m => l3.filter (fun a => decide (m ≤ a.popularity))
  | none => l3

/-- Models the inner `relevance_score` of `SearchEngine._rank_results` with
the source's IEEE-754 double arithmetic: every `score +=` is a double
addition, and the popularity boost is the double product of the converted
integer with the double literal `0.1`; the result is the double score
scaled by `2 ^ 1074` (`query_lower` is the already-lowercased query). -/
def relevance_score (query_lower : String) (a : Activity) : Int :=
  let score : Int := 0
  let score := if strContains (pyLower a.name) query_lower then
    f64_add score (f64_of_int 10) else score
  let score := if strContains (pyLower a.description) query_lower then
    f64_add score (f64_of_int 5) else score
  let score := if strContains (pyLower (a.category.getD "")) query_lower then
    f64_add score (f64_of_int 3) else score
  f64_add score (f64_mul (f64_of_int a.popularity) f64_tenth)

/-- Models `SearchEngine._rank_results`: `sorted(results, key=relevance_score,
reverse=True)`, a stable descending sort by score. -/
def rank_results (results : List Activity) (query : String) : List Activity :=
  sortDesc (relevance_score (pyLower query)) results

/-- Models `SearchEngine._add_recent_search` as a pure function on the
recent-search list: drop the query if present, push it to the front, keep
the first 10. -/
def add_recent_search (query : String) (l : List String) : List String :=
  (query :: l.erase query).take 10

/-- Models `SearchEngine.filter_activities`. -/
def filter_activities (st : SearchEngine) (f : Filters) : List Activity :=
  apply_filters st.activities f

/-- The candidate id set of a `SearchEngine.search` call: the posting-set
intersection over the lowercase whitespace-delimited query words. -/
def search_candidates (st : SearchEngine) (query : String) : Finset (Option String) :=
  find_matching_ids st.search_index (pySplit (pyLower query))

/-- The result list of a non-blank `SearchEngine.search` call just before
ranking: candidates resolved to records in catalog order, with the filters
applied when a (truthy) filter dict was given. -/
def search_pre_rank (st : SearchEngine) (query : String) (filters : Option Filters) :
    List Activity :=
  let results := st.activities.filter (fun a => decide (a.id ∈ search_candidates st query))
  match filters with
  | some f => if f.isTruthy then apply_filters results f else results
  | none => results

/-- Models `SearchEngine.search`, returning the updated engine state and the
result list. -/
def search (st : SearchEngine) (query : String) (filters : Option Filters) :
    SearchEngine × List Activity :=
  if isBlank query then
    (st, match filters with
         | some f => if f.isTruthy then filter_activities st f else st.activities
         | none => st.activities)
  else
    let st' := { st with recent_searches := add_recent_search query st.recent_searches }
    (st', rank_results (search_pre_rank st query filters) query)

/-- Models `SearchEngine.get_suggestions`. -/
def get_suggestions (st : SearchEngine) (pq : String) : List String :=
  if pq == "" then st.recent_searches.take 5
  else
    let pl := pyLower pq
    let fromRecent := st.recent_searches.filter (fun s => strContains (pyLower s) pl)
    let withIndexWords := st.search_index.foldl
      (fun acc p => if strStartsWith p.1 pl && !(acc.contains p.1) then acc ++ [p.1] else acc)
      fromRecent
    withIndexWords.take 5

/-- Sort keys of `SearchEngine.sort_activities`. -/
inductive EngineSort
  | alphabetical
  | popularity
  | date
deriving DecidableEq

/-- Models `SearchEngine.sort_activities` (the `date` branch sorts by a
`created_at` key the embedded records do not carry, so it keys on the
default `''`; no claim depends on it). -/
def sort_activities (acts : List Activity) (sort_by : EngineSort) : List Activity :=
  match sort_by with
  | .alphabetical => sortAsc (fun a => (pyLower a.name).data) acts
  | .popularity => sortDesc (fun a => a.popularity) acts
  | .date => acts

end SearchEngine

/- ## `app.py`: catalog and HTTP-facing handlers

The handlers read and write the module-level `activities` dict; the
embedding passes the catalog (an association list in insertion order, keyed
by activity name) explicitly and returns the updated catalog. -/

namespace App

/-- One value of the `activities` dict in `app.py` (every record there has
exactly these keys). -/
structure ActivityData where
  description : String
  schedule : String
  max_participants : Nat
  participants : List String
  category : String
deriving DecidableEq

/-- The module-level in-memory activity database of `app.py`. -/
def activities : List (String × ActivityData) :=
  [ ("Chess Club",
     { description := "Learn strategies and compete in chess tournaments"
       schedule := "Fridays, 3:30 PM - 5:00 PM"
       max_participants := 12
       participants := ["michael@mergington.edu", "daniel@mergington.edu"]
       category := "Academic" }),
    ("Programming Class",
     { description := "Learn programming fundamentals and build software projects"
       schedule := "Tuesdays and Thursdays, 3:30 PM - 4:30 PM"
       max_participants := 20
       participants := ["emma@mergington.edu", "sophia@mergington.edu"]
       category := "Academic" }),
    ("Gym Class",
     { description := "Physical education and sports activities"
       schedule := "Mondays, Wednesdays, Fridays, 2:00 PM - 3:00 PM"
       max_participants := 30
       participants := ["john@mergington.edu", "olivia@mergington.edu"]
       category := "Sports" }),
    ("Soccer Team",
     { description := "Join the school soccer team and compete in matches"
       schedule := "Tuesdays and Thursdays, 4:00 PM - 5:30 PM"
       max_participants := 22
       participants := ["liam@mergington.edu", "noah@mergington.edu"]
       category := "Sports" }),
    ("Basketball Team",
     { description := "Practice and play basketball with the school team"
       schedule := "Wednesdays and Fridays, 3:30 PM - 5:00 PM"
       max_participants := 15
       participants := ["ava@mergington.edu", "mia@mergington.edu"]
       category := "Sports" }),
    ("Art Club",
     { description := "Explore your creativity through painting and drawing"
       schedule := "Thursdays, 3:30 PM - 5:00 PM"
       max_participants := 15
       participants := ["amelia@mergington.edu", "harper@mergington.edu"]
       category := "Arts" }),
    ("Drama Club",
     { description := "Act, direct, and produce plays and performances"
       schedule := "Mondays and Wednesdays, 4:00 PM - 5:30 PM"
       max_participants := 20
       participants := ["ella@mergington.edu", "scarlett@mergington.edu"]
       category := "Arts" }),
    ("Math Club",
     { description := "Solve challenging problems and participate in math competitions"
       schedule := "Tuesdays, 3:30 PM - 4:30 PM"
       max_participants := 10
       participants := ["james@mergington.edu", "benjamin@mergington.edu"]
       category := "Academic" }),
    ("Debate Team",
     { description := "Develop public speaking and argumentation skills"
       schedule := "Fridays, 4:00 PM - 5:30 PM"
       max_participants := 12
       participants := ["charlotte@mergington.edu", "henry@mergington.edu"]
       category := "Academic" }),
    ("GitHub Skills",
     { description := "Learn practical coding and collaboration skills through GitHub. Part of our GitHub Certifications program to help with college applications"
       schedule := "Mondays and Wednesdays, 3:30 PM - 5:00 PM"
       max_participants := 25
       participants := []
       category := "Academic" }) ]

/-- The `SortBy` enum of `app.py`. -/
inductive SortBy
  | name
  | participants
  | availability
deriving DecidableEq

/-- Models Python truthiness of an optional string query parameter
(`if q:`): present and non-empty. -/
def truthy (o : Option String) : Bool :=
  match o with
  | some s => s != ""
  | none => false

/-- Models the `include` flag of the `search_activities` loop: the
conjunction of the query, category, availability and day guards. -/
def passes_filters (q category : Option String) (available : Option Bool)
    (day : Option String) (activity_name : String) (d : ActivityData) : Bool :=
  (match q with
   | some s =>
     if s != "" then
       strContains (pyLower activity_name) (pyLower s)
         || strContains (pyLower d.description) (pyLower s)
     else true
   | none => true)
  && (match category with
   | some c => if c != "" then pyLower d.category == pyLower c else true
   | none => true)
  && (match available with
   | some b => decide (d.participants.length < d.max_participants) == b
   | none => true)
  && (match day with
   | some dy =>
     if dy != "" then strContains (pyLower d.schedule) (pyLower dy) else true
   | none => true)

/-- Response shape of `GET /activities/search`. -/
structure SearchResponse where
  total : Nat
  query : Option String
  category : Option String
  available : Option Bool
  day : Option String
  sort_by : SortBy
  results : List (String × ActivityData)
deriving DecidableEq

/-- The result set of the `search_activities` loop before sorting: every
catalog entry passing all active filters, in catalog order. -/
def search_filtered (cat : List (String × ActivityData)) (q category : Option String)
    (available : Option Bool) (day : Option String) : List (String × ActivityData) :=
  cat.filter (fun p => passes_filters q category available day p.1 p.2)

/-- Models the `search_activities` handler over an explicit catalog: filter
every catalog entry, then sort by the requested key (`name`: ascending
case-insensitive; `participants`: descending count; `availability`:
descending free capacity; all stable). -/
def search_activities (cat : List (String × ActivityData)) (q category : Option String)
    (available : Option Bool) (sort_by : SortBy) (day : Option String) : SearchResponse :=
  let results := search_filtered cat q category available day
  let sorted_results := match sort_by with
    | .name => sortAsc (fun p => (pyLower p.1).data) results
    | .participants => sortDesc (fun p => p.2.participants.length) results
    | .availability =>
        sortDesc (fun p => (p.2.max_participants : Int) - p.2.participants.length) results
  { total := sorted_results.length
    query := q
    category := category
    available := available
    day := day
    sort_by := sort_by
    results := sorted_results }

/-- Errors raised by the signup/unregister handlers (`HTTPException`s in the
source: 404 activity not found, 400 already signed up / not signed up). -/
inductive ApiError
  | activity_not_found
  | already_signed_up
  | not_signed_up
deriving DecidableEq

/-- Models `activity_name in activities` / `activities[activity_name]`
(first matching key; Python dict keys are unique). -/
def lookup_activity : List (String × ActivityData) → String → Option ActivityData
  | [], _ => none
  | p :: rest, activity_name =>
    if p.1 == activity_name then some p.2 else lookup_activity rest activity_name

/-- Replaces the value of the first entry with the given key, leaving
everything else in place (in-place mutation of a dict value). -/
def update_activity : List (String × ActivityData) → String → ActivityData →
    List (String × ActivityData)
  | [], _, _ => []
  | p :: rest, activity_name, d =>
    if p.1 == activity_name then (p.1, d) :: rest
    else p :: update_activity rest activity_name d

/-- Models the `signup_for_activity` handler: returns the catalog after the
call together with the error raised, if any (the source raises before any
mutation, so on error the catalog is unchanged). -/
def signup_for_activity (cat : List (String × ActivityData))
    (activity_name email : String) : List (String × ActivityData) × Option ApiError :=
  match lookup_activity cat activity_name with
  | none => (cat, some .activity_not_found)
  | some activity =>
    if activity.participants.contains email then
      (cat, some .already_signed_up)
    else
      (update_activity cat activity_name
        { activity with participants := activity.participants ++ [email] }, none)

/-- Models the `unregister_from_activity` handler (`list.remove` drops the
first occurrence, as `List.erase` does). -/
def unregister_from_activity (cat : List (String × ActivityData))
    (activity_name email : String) : List (String × ActivityData) × Option ApiError :=
  match lookup_activity cat activity_name with
  | none => (cat, some .activity_not_found)
  | some activity =>
    if activity.participants.contains email then
      (update_activity cat activity_name
        { activity with participants := activity.participants.erase email }, none)
    else
      (cat, some .not_signed_up)

/-- One autocomplete suggestion of `GET /activities/suggestions`. -/
structure Suggestion where
  text : String
  type : String
deriving DecidableEq

/-- Models the `get_search_suggestions` handler over an explicit catalog:
activity-name matches first, then keyword matches from descriptions
(words longer than 3 characters, deduplicated), capped at 10. -/
def get_search_suggestions (cat : List (String × ActivityData)) (q : String) :
    List Suggestion :=
  let query_lower := pyLower q
  let fromNames := (cat.filter (fun p => strContains (pyLower p.1) query_lower)).map
    (fun p => Suggestion.mk p.1 "activity")
  let fromKeywords := cat.foldl (fun acc p =>
    (pySplit (pyLower p.2.description)).foldl (fun acc w =>
      if strContains w query_lower && decide (3 < w.data.length)
          && !((acc.2 : List String).contains w) then
        (acc.1 ++ [Suggestion.mk (pyCapitalize w) "keyword"], w :: acc.2)
      else acc) acc) (fromNames, ([] : List String))
  fromKeywords.1.take 10

end App

/- ## `filters.py`: the `FilterManager` class

`validate_filters` receives an arbitrary client-supplied dict, so its
values are dynamically typed; `PyVal` covers the Python value shapes the
validation logic distinguishes, including container (unhashable) values —
embedded as lists; a dict-valued entry behaves identically, so one
container shape suffices.  The set-membership tests `v in set_of_strings`
hash `v` first and therefore raise `TypeError` on a container; that error
is not caught by the source and propagates, so validation as a whole
returns in an `Except`. -/

/-- A dynamically typed Python value as seen by `validate_filters`. -/
inductive PyVal
  | vNone
  | vBool (b : Bool)
  | vInt (n : Int)
  | vStr (s : String)
  | vList (elems : List PyVal)

/-- Whether a value is hashable (usable in a set-membership test). -/
def PyVal.hashable : PyVal → Bool
  | .vList _ => false
  | _ => true

/-- The exception the membership tests raise on unhashable values. -/
inductive PyError
  | typeError
deriving DecidableEq

/-- Accepts the digit tail of a decimal literal after its first digit:
digits with single underscores strictly between digits, as CPython `int()`
allows (`4_2` parses, `_42`, `42_` and `4__2` do not). -/
def pyUnderscoreDigits : List Char → Bool
  | [] => true
  | '_' :: c :: cs => c.isDigit && pyUnderscoreDigits cs
  | '_' :: [] => false
  | c :: cs => c.isDigit && pyUnderscoreDigits cs

/-- Models CPython `int(s)` on a string: surrounding whitespace, one
optional sign, then a nonempty run of decimal digits with optional
underscore grouping; anything else fails. -/
def parse_int_string (s : String) : Option Int :=
  let t := ((s.data.dropWhile Char.isWhitespace).reverse.dropWhile Char.isWhitespace).reverse
  let core := fun (ds : List Char) =>
    match ds with
    | [] => none
    | c :: cs =>
      if c.isDigit && pyUnderscoreDigits cs then
        some (((ds.filter (fun ch => ch != '_')).foldl
          (fun n ch => n * 10 + (ch.toNat - 48)) 0 : Nat) : Int)
      else none
  match t with
  | '+' :: ds => core ds
  | '-' :: ds => (core ds).map Int.neg
  | ds => core ds

/-- Models Python `int(v)` as used in `validate_filters`: succeeds on
bools, ints and well-formed decimal strings; raises — here `none`, the
raise being caught by the surrounding `try` — on everything else,
including containers. -/
def py_int : PyVal → Option Int
  | .vBool b => some (if b then 1 else 0)
  | .vInt n => some n
  | .vStr s => parse_int_string s
  | .vNone => none
  | .vList _ => none

/-- State of a `FilterManager` instance. -/
structure FilterManager where
  available_categories : Finset String
  available_schedules : Finset String

namespace FilterManager

/-- Models `filters[k]` on the input dict (first entry with key `k`; Python
dict keys are unique). -/
def dictGet (filters : List (String × PyVal)) (k : String) : Option PyVal :=
  (filters.find? (fun p => p.1 == k)).map Prod.snd

/-- The `category` block of `validate_filters` (`'category' in filters and
filters['category'] in self.available_categories`): contributes the entry
it adds to `valid_filters`, nothing, or the `TypeError` the membership test
raises on an unhashable value.  A hashable non-string is simply not a
member of a set of strings. -/
def category_check (cats : Finset String) : Option PyVal → Except PyError (List (String × PyVal))
  | some (.vList _) => .error .typeError
  | some (.vStr c) => .ok (if c ∈ cats then [("category", PyVal.vStr c)] else [])
  | some _ => .ok []
  | none => .ok []

/-- The `schedule` block of `validate_filters` (same membership-test
semantics as the category block). -/
def schedule_check (scheds : Finset String) : Option PyVal → Except PyError (List (String × PyVal))
  | some (.vList _) => .error .typeError
  | some (.vStr s) => .ok (if s ∈ scheds then [("schedule", PyVal.vStr s)] else [])
  | some _ => .ok []
  | none => .ok []

/-- The `availability` block of `validate_filters`
(`isinstance(filters['availability'], bool)` — never raises). -/
def availability_check : Option PyVal → List (String × PyVal)
  | some (.vBool b) => [("availability", PyVal.vBool b)]
  | some _ => []
  | none => []

/-- The `min_popularity` block of `validate_filters` (the
`try: int(…) except (ValueError, TypeError): pass` conversion — every
failure is caught). -/
def min_popularity_check : Option PyVal → List (String × PyVal)
  | some v =>
    match py_int v with
    | some n => [("min_popularity", PyVal.vInt n)]
    | none => []
  | none => []

/-- Models `FilterManager.validate_filters`: the four blocks run in source
order, building the output dict; a `TypeError` from the category or
schedule membership test propagates (the source catches errors only around
`int(…)`). -/
def validate_filters (fm : FilterManager) (filters : List (String × PyVal)) :
    Except PyError (List (String × PyVal)) :=
  match category_check fm.available_categories (dictGet filters "category") with
  | .error e => .error e
  | .ok l1 =>
    match schedule_check fm.available_schedules (dictGet filters "schedule") with
    | .error e => .error e
    | .ok l2 =>
      .ok (l1 ++ l2 ++ availability_check (dictGet filters "availability")
        ++ min_popularity_check (dictGet filters "min_popularity"))

end FilterManager

/- ## General lemmas about the embedding -/

theorem char_eq_iff_toNat {a b : Char} : a = b ↔ a.toNat = b.toNat := by
  constructor
  · rintro rfl; rfl
  · intro h
    apply Char.ext
    exact UInt32.toNat.inj h

theorem toNat_ofNat_valid {n : Nat} (h : n.isValidChar) : (Char.ofNat n).toNat = n := by
  simp only [Char.ofNat, dif_pos h, Char.ofNatAux, Char.toNat]
  rfl

theorem isWhitespace_iff (c : Char) :
    c.isWhitespace = true ↔ (c.toNat = 32 ∨ c.toNat = 9 ∨ c.toNat = 13 ∨ c.toNat = 10) := by
  have h1 : (' ' : Char).toNat = 32 := rfl
  have h2 : ('\t' : Char).toNat = 9 := rfl
  have h3 : ('\x0d' : Char).toNat = 13 := rfl
  have h4 : ('\n' : Char).toNat = 10 := rfl
  simp only [Char.isWhitespace, Bool.or_eq_true, decide_eq_true_eq, char_eq_iff_toNat,
    h1, h2, h3, h4]
  tauto

/-- Lowercasing does not change whether a character is whitespace. -/
theorem toLower_isWhitespace (c : Char) :
    (Char.toLower c).isWhitespace = c.isWhitespace := by
  simp only [Char.toLower]
  by_cases h : c.toNat ≥ 65 ∧ c.toNat ≤ 90
  · rw [if_pos h]
    have hval : (Char.ofNat (c.toNat + 32)).toNat = c.toNat + 32 :=
      toNat_ofNat_valid (Or.inl (by omega))
    have h1 : (Char.ofNat (c.toNat + 32)).isWhitespace = false := by
      rw [Bool.eq_false_iff, Ne, isWhitespace_iff, hval]
      omega
    have h2 : c.isWhitespace = false := by
      rw [Bool.eq_false_iff, Ne, isWhitespace_iff]
      omega
    rw [h1, h2]
  · rw [if_neg h]

theorem pySplitAux_ne_nil (l : List Char) : ∀ acc : List Char,
    ((∃ c ∈ l, c.isWhitespace = false) ∨ acc ≠ []) → pySplitAux l acc ≠ [] := by
  induction l with
  | nil =>
    intro acc h
    rcases h with h | h
    · simp at h
    · simp [pySplitAux, List.isEmpty_iff, h]
  | cons c cs ih =>
    intro acc h
    by_cases hw : c.isWhitespace = true
    · simp only [pySplitAux]
      rw [if_pos hw]
      by_cases ha : acc.isEmpty = true
      · rw [if_pos ha]
        apply ih []
        left
        rcases h with ⟨x, hx, hxw⟩ | hacc
        · rcases List.mem_cons.mp hx with rfl | hx
          · rw [hw] at hxw; cases hxw
          · exact ⟨x, hx, hxw⟩
        · exact absurd (List.isEmpty_iff.mp ha) hacc
      · rw [if_neg ha]
        exact List.cons_ne_nil _ _
    · simp only [pySplitAux]
      rw [if_neg hw]
      exact ih (c :: acc) (Or.inr (List.cons_ne_nil c acc))

/-- A non-blank query yields at least one lowercased search term. -/
theorem pySplit_pyLower_ne_nil {q : String} (h : isBlank q = false) :
    pySplit (pyLower q) ≠ [] := by
  have hq : ∃ c ∈ q.data, c.isWhitespace = false := by
    unfold isBlank at h
    rcases List.all_eq_false.mp h with ⟨c, hc, hcw⟩
    exact ⟨c, hc, by simpa using hcw⟩
  rcases hq with ⟨c, hc, hcw⟩
  have : ∃ c' ∈ (pyLower q).data, c'.isWhitespace = false :=
    ⟨Char.toLower c, List.mem_map_of_mem Char.toLower hc,
      by rw [toLower_isWhitespace]; exact hcw⟩
  exact pySplitAux_ne_nil _ [] (Or.inl this)

namespace SearchEngine

theorem mem_foldl_inter {β : Type} [DecidableEq β] (L : String → Finset β) :
    ∀ (ws : List String) (init : Finset β) (x : β),
      x ∈ ws.foldl (fun s w => s ∩ L w) init ↔ x ∈ init ∧ ∀ w ∈ ws, x ∈ L w := by
  intro ws
  induction ws with
  | nil => intro init x; simp
  | cons w ws ih =>
    intro init x
    simp only [List.foldl_cons, ih, Finset.mem_inter, List.mem_cons]
    constructor
    · rintro ⟨⟨h1, h2⟩, h3⟩
      exact ⟨h1, fun v hv => by rcases hv with rfl | hv; exacts [h2, h3 v hv]⟩
    · rintro ⟨h1, h2⟩
      exact ⟨⟨h1, h2 w (Or.inl rfl)⟩, fun v hv => h2 v (Or.inr hv)⟩

/-- Characterization of `_find_matching_ids` on a non-empty word list: exact
AND semantics over the posting sets. -/
theorem mem_find_matching_ids (idx : List (String × Finset (Option String)))
    {ws : List String} (hws : ws ≠ []) (x : Option String) :
    x ∈ find_matching_ids idx ws ↔ ∀ w ∈ ws, x ∈ lookupPostings idx w := by
  cases ws with
  | nil => exact absurd rfl hws
  | cons w ws =>
    simp only [find_matching_ids, mem_foldl_inter, List.mem_cons]
    constructor
    · rintro ⟨h1, h2⟩
      exact fun v hv => by rcases hv with rfl | hv; exacts [h1, h2 v hv]
    · intro h
      exact ⟨h w (Or.inl rfl), fun v hv => h v (Or.inr hv)⟩

theorem find_matching_ids_eq_empty (idx : List (String × Finset (Option String)))
    {ws : List String} {w : String} (hw : w ∈ ws) (h : lookupPostings idx w = ∅) :
    find_matching_ids idx ws = ∅ := by
  have hws : ws ≠ [] := by rintro rfl; cases hw
  apply Finset.eq_empty_iff_forall_not_mem.mpr
  intro x hx
  have := (mem_find_matching_ids idx hws x).mp hx w hw
  rw [h] at this
  exact absurd this (Finset.not_mem_empty x)

theorem apply_filters_nil (f : Filters) : apply_filters [] f = [] := by
  obtain ⟨fc, fb, fs, fm⟩ := f
  cases fc <;> cases fb <;> cases fs <;> cases fm <;> rfl

theorem apply_filters_sublist (acts : List Activity) (f : Filters) :
    (apply_filters acts f).Sublist acts := by
  obtain ⟨fc, fb, fs, fm⟩ := f
  have t : ∀ {l m : List Activity} (p : Activity → Bool),
      l.Sublist m → (l.filter p).Sublist m :=
    fun p h => (List.filter_sublist _).trans h
  cases fc <;> cases fb <;> cases fs <;> cases fm <;>
    simp only [apply_filters] <;>
    first
      | exact List.Sublist.refl _
      | exact t _ (List.Sublist.refl _)
      | exact t _ (t _ (List.Sublist.refl _))
      | exact t _ (t _ (t _ (List.Sublist.refl _)))
      | exact t _ (t _ (t _ (t _ (List.Sublist.refl _))))

/-- A falsy (empty) filter dict filters nothing. -/
theorem apply_filters_of_not_truthy (acts : List Activity) {f : Filters}
    (h : f.isTruthy = false) : apply_filters acts f = acts := by
  obtain ⟨fc, fb, fs, fm⟩ := f
  simp only [Filters.isTruthy, Bool.or_eq_false_iff] at h
  obtain ⟨⟨⟨h1, h2⟩, h3⟩, h4⟩ := h
  rw [← Bool.not_eq_true, Option.not_isSome_iff_eq_none] at h1 h2 h3 h4
  subst h1; subst h2; subst h3; subst h4
  rfl

/-- Every record surviving `_apply_filters` is an input record satisfying
each active criterion as the source implements it. -/
theorem mem_apply_filters {acts : List Activity} {f : Filters} {a : Activity}
    (h : a ∈ apply_filters acts f) :
    a ∈ acts ∧
    (∀ c, f.category = some c → a.category = some c) ∧
    (∀ b, f.availability = some b → a.available = some b) ∧
    (∀ s, f.schedule = some s → a.schedule = some s) ∧
    (∀ m, f.min_popularity = some m → m ≤ a.popularity) := by
  obtain ⟨fc, fb, fs, fm⟩ := f
  cases fc <;> cases fb <;> cases fs <;> cases fm <;>
    simp_all [apply_filters, List.mem_filter]

theorem rank_results_perm (results : List Activity) (query : String) :
    List.Perm (rank_results results query) results :=
  sortDesc_perm _ results

theorem search_of_blank (st : SearchEngine) {query : String} (h : isBlank query = true)
    (filters : Option Filters) :
    search st query filters =
      (st, match filters with
           | some f => if f.isTruthy then filter_activities st f else st.activities
           | none => st.activities) := by
  unfold search
  rw [if_pos h]

theorem search_of_not_blank (st : SearchEngine) {query : String}
    (h : isBlank query = false) (filters : Option Filters) :
    search st query filters =
      ({ st with recent_searches := add_recent_search query st.recent_searches },
        rank_results (search_pre_rank st query filters) query) := by
  unfold search
  rw [if_neg (by simp [h])]

end SearchEngine

namespace SearchEngine

theorem not_truthy_fields {f : Filters} (h : f.isTruthy = false) :
    f.category = none ∧ f.availability = none ∧ f.schedule = none ∧
      f.min_popularity = none := by
  obtain ⟨fc, fb, fs, fm⟩ := f
  simp only [Filters.isTruthy, Bool.or_eq_false_iff] at h
  obtain ⟨⟨⟨h1, h2⟩, h3⟩, h4⟩ := h
  rw [← Bool.not_eq_true, Option.not_isSome_iff_eq_none] at h1 h2 h3 h4
  exact ⟨h1, h2, h3, h4⟩

/-- Any activity in the output of `SearchEngine.search` satisfies each active
criterion as `_apply_filters` evaluates it. -/
theorem search_results_satisfy_filters {st : SearchEngine} {query : String}
    {f : Filters} {a : Activity} (h : a ∈ (search st query (some f)).2) :
    (∀ c, f.category = some c → a.category = some c) ∧
    (∀ b, f.availability = some b → a.available = some b) ∧
    (∀ s, f.schedule = some s → a.schedule = some s) ∧
    (∀ m, f.min_popularity = some m → m ≤ a.popularity) := by
  by_cases hb : isBlank query = true
  · rw [search_of_blank st hb] at h
    simp only at h
    by_cases ht : f.isTruthy = true
    · rw [if_pos ht] at h
      exact (mem_apply_filters h).2
    · obtain ⟨h1, h2, h3, h4⟩ := not_truthy_fields (Bool.eq_false_iff.mpr ht)
      rw [h1, h2, h3, h4]
      simp
  · rw [search_of_not_blank st (Bool.eq_false_iff.mpr hb)] at h
    simp only at h
    have hpre : a ∈ search_pre_rank st query (some f) :=
      (List.Perm.mem_iff (rank_results_perm _ query)).mp h
    unfold search_pre_rank at hpre
    simp only at hpre
    by_cases ht : f.isTruthy = true
    · rw [if_pos ht] at hpre
      exact (mem_apply_filters hpre).2
    · obtain ⟨h1, h2, h3, h4⟩ := not_truthy_fields (Bool.eq_false_iff.mpr ht)
      rw [h1, h2, h3, h4]
      simp

end SearchEngine

namespace App

/-- Results of `search_activities` come from the filtered set. -/
theorem mem_search_results {cat : List (String × ActivityData)}
    {q category : Option String} {available : Option Bool} {sort_by : SortBy}
    {day : Option String} {p : String × ActivityData}
    (h : p ∈ (search_activities cat q category available sort_by day).results) :
    p ∈ search_filtered cat q category available day := by
  unfold search_activities at h
  cases sort_by with
  | name => exact (List.Perm.mem_iff (sortAsc_perm _ _)).mp h
  | participants => exact (List.Perm.mem_iff (sortDesc_perm _ _)).mp h
  | availability => exact (List.Perm.mem_iff (sortDesc_perm _ _)).mp h

/-- Decodes the `include` flag into the four active criteria. -/
theorem passes_filters_spec {q category : Option String} {available : Option Bool}
    {day : Option String} {activity_name : String} {d : ActivityData}
    (h : passes_filters q category available day activity_name d = true) :
    (∀ b, available = some b →
      decide (d.participants.length < d.max_participants) = b) ∧
    (∀ cs, category = some cs → cs ≠ "" → pyLower d.category = pyLower cs) ∧
    (∀ ds, day = some ds → ds ≠ "" →
      strContains (pyLower d.schedule) (pyLower ds) = true) ∧
    (∀ qs, q = some qs → qs ≠ "" →
      (strContains (pyLower activity_name) (pyLower qs)
        || strContains (pyLower d.description) (pyLower qs)) = true) := by
  unfold passes_filters at h
  simp only [Bool.and_eq_true] at h
  obtain ⟨⟨⟨hq, hc⟩, hav⟩, hd⟩ := h
  refine ⟨?_, ?_, ?_, ?_⟩
  · intro b hb
    subst hb
    simpa using hav
  · intro cs hcs hne
    subst hcs
    have hcne : (cs != "") = true := by simpa using hne
    have h2 : (if (cs != "") = true then (pyLower d.category == pyLower cs) else true)
        = true := hc
    rw [if_pos hcne] at h2
    simpa using h2
  · intro ds hds hne
    subst hds
    have hdne : (ds != "") = true := by simpa using hne
    have h2 : (if (ds != "") = true then strContains (pyLower d.schedule) (pyLower ds)
        else true) = true := hd
    rw [if_pos hdne] at h2
    exact h2
  · intro qs hqs hne
    subst hqs
    have hqne : (qs != "") = true := by simpa using hne
    have h2 : (if (qs != "") = true then
        (strContains (pyLower activity_name) (pyLower qs)
          || strContains (pyLower d.description) (pyLower qs)) else true) = true := hq
    rw [if_pos hqne] at h2
    exact h2

end App

/- ## Claim C1 -/

/-- An activity that is full (2 of 2 places taken) but whose stored
`available` field says `True`. -/
def c1_full_activity : Activity :=
  { id := some "a1"
    name := "Full Club"
    description := "a club that is full"
    category := some "Academic"
    schedule := none
    tags := []
    available := some true
    popularity := 0
    max_participants := 2
    participants := ["x@mergington.edu", "y@mergington.edu"] }

/-- An engine whose catalog holds only `c1_full_activity`. -/
def c1_engine : SearchEngine :=
  { activities := [c1_full_activity], search_index := [], recent_searches := [] }

/-- C1 is false as stated: with the availability criterion set to true,
`SearchEngine.search` returns an activity that does **not** have strictly
fewer participants than `max_participants`, because `_apply_filters`
compares the stored `available` field instead of deriving availability from
the participant count. -/
theorem claim_C1_counterexample :
    (SearchEngine.search c1_engine "" (some { availability := some true })).2
      = [c1_full_activity] ∧
    ¬(c1_full_activity.participants.length < c1_full_activity.max_participants) := by
  decide

/-- C1 (amended): every activity returned by a search satisfies every active
criterion as the code evaluates it.  In the HTTP path
(`App.search_activities`) the availability criterion is the derived fact
`len(participants) < max_participants` compared with the requested boolean
(and category / day / query criteria hold as implemented); in the
`SearchEngine` path every active criterion of `_apply_filters` holds, where
the availability criterion compares the activity's **stored** `available`
field with the filter value rather than the derived participant count. -/
theorem claim_C1_amended :
    (∀ (cat : List (String × App.ActivityData)) (q c : Option String)
        (av : Option Bool) (sb : App.SortBy) (day : Option String)
        (p : String × App.ActivityData),
        p ∈ (App.search_activities cat q c av sb day).results →
        (∀ b, av = some b →
          decide (p.2.participants.length < p.2.max_participants) = b) ∧
        (∀ cs, c = some cs → cs ≠ "" → pyLower p.2.category = pyLower cs) ∧
        (∀ ds, day = some ds → ds ≠ "" →
          strContains (pyLower p.2.schedule) (pyLower ds) = true) ∧
        (∀ qs, q = some qs → qs ≠ "" →
          (strContains (pyLower p.1) (pyLower qs)
            || strContains (pyLower p.2.description) (pyLower qs)) = true)) ∧
    (∀ (st : SearchEngine) (query : String) (f : Filters) (a : Activity),
        a ∈ (SearchEngine.search st query (some f)).2 →
        (∀ c, f.category = some c → a.category = some c) ∧
        (∀ b, f.availability = some b → a.available = some b) ∧
        (∀ s, f.schedule = some s → a.schedule = some s) ∧
        (∀ m, f.min_popularity = some m → m ≤ a.popularity)) := by
  constructor
  · intro cat q c av sb day p hp
    have hf := App.mem_search_results hp
    unfold App.search_filtered at hf
    exact App.passes_filters_spec (List.mem_filter.mp hf).2
  · intro st query f a ha
    exact SearchEngine.search_results_satisfy_filters ha

/-- Witness for C1 (amended), at the default `app.py` catalog with
`available=true` (where "Chess Club" has space) and at the one-activity
engine with the availability filter set. -/
theorem claim_C1_witness :
    (("Chess Club", App.ActivityData.mk
        "Learn strategies and compete in chess tournaments"
        "Fridays, 3:30 PM - 5:00 PM" 12
        ["michael@mergington.edu", "daniel@mergington.edu"] "Academic")
      ∈ (App.search_activities App.activities none none (some true)
          App.SortBy.name none).results ∧
      decide ((["michael@mergington.edu", "daniel@mergington.edu"] : List String).length
        < 12) = true) ∧
    (c1_full_activity
      ∈ (SearchEngine.search c1_engine "" (some { availability := some true })).2 ∧
      c1_full_activity.available = some true) := by
  refine ⟨⟨by decide, ?_⟩, ⟨by decide, ?_⟩⟩
  · exact (claim_C1_amended.1 App.activities none none (some true) App.SortBy.name none
      ("Chess Club", App.ActivityData.mk
        "Learn strategies and compete in chess tournaments"
        "Fridays, 3:30 PM - 5:00 PM" 12
        ["michael@mergington.edu", "daniel@mergington.edu"] "Academic")
      (by decide)).1 true rfl
  · exact (claim_C1_amended.2 c1_engine "" { availability := some true }
      c1_full_activity (by decide)).2.1 true rfl

/- ## Claims C2 and C3 -/

namespace SearchEngine

theorem search_pre_rank_of_empty {st : SearchEngine} {query : String}
    (h : search_candidates st query = ∅) (f : Option Filters) :
    search_pre_rank st query f = [] := by
  unfold search_pre_rank
  rw [h]
  have hres : st.activities.filter
      (fun a => decide (a.id ∈ (∅ : Finset (Option String)))) = [] := by
    simp
  rw [hres]
  cases f with
  | none => rfl
  | some f =>
    by_cases ht : f.isTruthy = true
    · simp only [if_pos ht]
      exact apply_filters_nil f
    · simp only [Bool.not_eq_true] at ht
      simp only [ht]
      rfl

end SearchEngine

/-- A small inverted index (dict in insertion order; ids of activities
containing each word). -/
def demo_index : List (String × Finset (Option String)) :=
  [("chess", {some "c1"}), ("club", {some "c1", some "c2"}), ("math", {some "m1"})]

/-- A small catalog entry matching `demo_index`. -/
def demo_activity1 : Activity :=
  { id := some "c1"
    name := "Chess Club"
    description := "Learn chess in tournaments"
    category := some "Academic"
    schedule := some "Fridays"
    tags := []
    available := some true
    popularity := 5
    max_participants := 12
    participants := ["a@mergington.edu"] }

/-- A second small catalog entry. -/
def demo_activity2 : Activity :=
  { id := some "c2"
    name := "Glee Club"
    description := "Sing together"
    category := some "Arts"
    schedule := some "Mondays"
    tags := []
    available := none
    popularity := 0
    max_participants := 10
    participants := [] }

/-- A small engine state used to instantiate the engine-level theorems. -/
def demo_engine : SearchEngine :=
  { activities := [demo_activity1, demo_activity2]
    search_index := demo_index
    recent_searches := [] }

/-- C2: for a non-blank query, the candidate set of `search` is exactly the
intersection of the posting sets of all lowercase whitespace-delimited query
terms; a term with no postings empties the whole result; an empty term list
yields an empty candidate set. -/
theorem claim_C2 :
    (∀ (idx : List (String × Finset (Option String))) (ws : List String)
        (x : Option String), ws ≠ [] →
        (x ∈ SearchEngine.find_matching_ids idx ws ↔
          ∀ w ∈ ws, x ∈ SearchEngine.lookupPostings idx w)) ∧
    (∀ idx, SearchEngine.find_matching_ids idx [] = ∅) ∧
    (∀ (st : SearchEngine) (query : String) (x : Option String),
        isBlank query = false →
        (x ∈ SearchEngine.search_candidates st query ↔
          ∀ w ∈ pySplit (pyLower query),
            x ∈ SearchEngine.lookupPostings st.search_index w)) ∧
    (∀ (st : SearchEngine) (query : String) (f : Option Filters),
        isBlank query = false →
        (∃ w ∈ pySplit (pyLower query),
          SearchEngine.lookupPostings st.search_index w = ∅) →
        (SearchEngine.search st query f).2 = []) := by
  refine ⟨?_, ?_, ?_, ?_⟩
  · intro idx ws x hws
    exact SearchEngine.mem_find_matching_ids idx hws x
  · intro idx
    rfl
  · intro st query x hq
    exact SearchEngine.mem_find_matching_ids st.search_index
      (pySplit_pyLower_ne_nil hq) x
  · intro st query f hq ⟨w, hw, hpost⟩
    rw [SearchEngine.search_of_not_blank st hq]
    simp only
    rw [SearchEngine.search_pre_rank_of_empty
      (SearchEngine.find_matching_ids_eq_empty st.search_index hw hpost) f]
    rfl

/-- Witness for C2: the characterizations at a concrete index and the
zero-result behaviour of an unindexed term. -/
theorem claim_C2_witness :
    (some "c1" ∈ SearchEngine.find_matching_ids demo_index ["chess", "club"] ↔
      ∀ w ∈ ["chess", "club"], some "c1" ∈ SearchEngine.lookupPostings demo_index w) ∧
    (SearchEngine.search demo_engine "xyzzy" none).2 = [] :=
  ⟨claim_C2.1 demo_index ["chess", "club"] (some "c1") (by decide),
   claim_C2.2.2.2 demo_engine "xyzzy" none (by decide)
     ⟨"xyzzy", by decide, by decide⟩⟩

/-- C3: for a blank query the engine state is untouched (in particular the
blank query is not recorded in the recent-search list) and the result is
exactly `filter_activities` of the given filters — the full catalog, in
catalog order, when no filters are given — and is always a subsequence of
the catalog (catalog order). -/
theorem claim_C3 :
    ∀ (st : SearchEngine) (query : String) (filters : Option Filters),
      isBlank query = true →
      (SearchEngine.search st query filters).1 = st ∧
      (∀ f, filters = some f →
        (SearchEngine.search st query filters).2 =
          SearchEngine.filter_activities st f) ∧
      (filters = none →
        (SearchEngine.search st query filters).2 = st.activities) ∧
      (SearchEngine.search st query filters).2.Sublist st.activities := by
  intro st query filters hq
  rw [SearchEngine.search_of_blank st hq]
  refine ⟨rfl, ?_, ?_, ?_⟩
  · rintro f rfl
    simp only
    by_cases ht : f.isTruthy = true
    · rw [if_pos ht]
    · rw [if_neg ht]
      unfold SearchEngine.filter_activities
      exact (SearchEngine.apply_filters_of_not_truthy st.activities
        (Bool.eq_false_iff.mpr ht)).symm
  · rintro rfl
    rfl
  · cases filters with
    | none => exact List.Sublist.refl _
    | some f =>
      simp only
      by_cases ht : f.isTruthy = true
      · rw [if_pos ht]
        exact SearchEngine.apply_filters_sublist st.activities f
      · rw [if_neg ht]

/-- Witness for C3: a whitespace-only query against the demo engine with a
category filter, and with no filters. -/
theorem claim_C3_witness :
    (SearchEngine.search demo_engine "  " (some { category := some "Arts" })).1
      = demo_engine ∧
    (SearchEngine.search demo_engine "  " (some { category := some "Arts" })).2
      = SearchEngine.filter_activities demo_engine { category := some "Arts" } ∧
    (SearchEngine.search demo_engine "  " none).2 = demo_engine.activities :=
  ⟨(claim_C3 demo_engine "  " (some { category := some "Arts" }) (by decide)).1,
   (claim_C3 demo_engine "  " (some { category := some "Arts" }) (by decide)).2.1
     { category := some "Arts" } rfl,
   (claim_C3 demo_engine "  " none (by decide)).2.2.1 rfl⟩

/- ## Claim C4 -/

/-- Runs a sequence of `search` calls against an engine, threading the
state. -/
def run_searches (st : SearchEngine) (calls : List (String × Option Filters)) :
    SearchEngine :=
  calls.foldl (fun s c => (SearchEngine.search s c.1 c.2).1) st

namespace SearchEngine

theorem search_fst_recent (st : SearchEngine) (q : String) (f : Option Filters) :
    (search st q f).1.recent_searches =
      if isBlank q then st.recent_searches
      else add_recent_search q st.recent_searches := by
  by_cases hb : isBlank q = true
  · rw [search_of_blank st hb, if_pos hb]
  · have hb' := Bool.eq_false_iff.mpr hb
    rw [search_of_not_blank st hb', hb']
    simp

theorem add_recent_search_length (q : String) (l : List String) :
    (add_recent_search q l).length ≤ 10 := by
  unfold add_recent_search
  rw [List.length_take]
  exact min_le_left _ _

theorem add_recent_search_nodup (q : String) {l : List String} (h : l.Nodup) :
    (add_recent_search q l).Nodup := by
  unfold add_recent_search
  apply List.Nodup.sublist (List.take_sublist _ _)
  refine List.nodup_cons.mpr ⟨?_, h.erase q⟩
  intro hq
  exact (List.Nodup.mem_erase_iff h).mp hq |>.1 rfl

theorem add_recent_search_head (q : String) (l : List String) :
    (add_recent_search q l).head? = some q := by
  unfold add_recent_search
  rw [List.take_succ_cons]
  rfl

theorem add_recent_search_count (q : String) {l : List String} (h : l.Nodup) :
    (add_recent_search q l).count q = 1 := by
  unfold add_recent_search
  rw [List.take_succ_cons, List.count_cons_self]
  have h1 : ((l.erase q).take 9).count q ≤ (l.erase q).count q :=
    (List.take_sublist _ _).count_le q
  have h2 : (l.erase q).count q = l.count q - 1 := List.count_erase_self q l
  have h3 : l.count q ≤ 1 := List.nodup_iff_count_le_one.mp h q
  omega

theorem add_recent_search_perm (q : String) {l : List String}
    (hlen : l.length ≤ 10) (hq : q ∈ l) :
    List.Perm (add_recent_search q l) l := by
  unfold add_recent_search
  have hlen2 : (q :: l.erase q).length ≤ 10 := by
    rw [List.length_cons, List.length_erase_of_mem hq]
    omega
  rw [List.take_of_length_le hlen2]
  exact (List.perm_cons_erase hq).symm

theorem run_searches_invariant (calls : List (String × Option Filters)) :
    ∀ st : SearchEngine,
      st.recent_searches.length ≤ 10 → st.recent_searches.Nodup →
      (run_searches st calls).recent_searches.length ≤ 10 ∧
        (run_searches st calls).recent_searches.Nodup := by
  induction calls with
  | nil => exact fun st h1 h2 => ⟨h1, h2⟩
  | cons c cs ih =>
    intro st h1 h2
    have hstep := search_fst_recent st c.1 c.2
    have hlen : (search st c.1 c.2).1.recent_searches.length ≤ 10 := by
      rw [hstep]
      split
      · exact h1
      · exact add_recent_search_length _ _
    have hnd : (search st c.1 c.2).1.recent_searches.Nodup := by
      rw [hstep]
      split
      · exact h2
      · exact add_recent_search_nodup _ h2
    exact ih _ hlen hnd

end SearchEngine

/-- C4: across every sequence of search calls from an empty recent-search
list, the list stays at length at most 10 and duplicate-free; adding a query
puts it at the front, a duplicate insertion keeps exactly one copy and (when
the list is within capacity) merely permutes the list; and the
math–chess–math example yields `["math", "chess"]`. -/
theorem claim_C4 :
    (∀ (st0 : SearchEngine) (calls : List (String × Option Filters)),
      st0.recent_searches = [] →
      (run_searches st0 calls).recent_searches.length ≤ 10 ∧
        (run_searches st0 calls).recent_searches.Nodup) ∧
    (∀ (q : String) (l : List String),
      (SearchEngine.add_recent_search q l).head? = some q) ∧
    (∀ (q : String) (l : List String), l.Nodup →
      (SearchEngine.add_recent_search q l).count q = 1) ∧
    (∀ (q : String) (l : List String), l.Nodup → l.length ≤ 10 → q ∈ l →
      List.Perm (SearchEngine.add_recent_search q l) l) ∧
    SearchEngine.add_recent_search "math"
      (SearchEngine.add_recent_search "chess"
        (SearchEngine.add_recent_search "math" [])) = ["math", "chess"] := by
  refine ⟨?_, ?_, ?_, ?_, by decide⟩
  · intro st0 calls h0
    exact SearchEngine.run_searches_invariant calls st0 (by rw [h0]; decide)
      (by rw [h0]; exact List.nodup_nil)
  · exact SearchEngine.add_recent_search_head
  · exact fun q l h => SearchEngine.add_recent_search_count q h
  · exact fun q l _ h10 hq => SearchEngine.add_recent_search_perm q h10 hq

/-- Witness for C4: three searches ("math", "chess", "math") run from an
empty engine, and the move-to-front facts at a concrete list. -/
theorem claim_C4_witness :
    ((run_searches ⟨[], [], []⟩
        [("math", none), ("chess", none), ("math", none)]).recent_searches.length ≤ 10 ∧
      (run_searches ⟨[], [], []⟩
        [("math", none), ("chess", none), ("math", none)]).recent_searches.Nodup) ∧
    (SearchEngine.add_recent_search "math" ["chess", "math"]).head? = some "math" ∧
    (SearchEngine.add_recent_search "math" ["chess", "math"]).count "math" = 1 ∧
    List.Perm (SearchEngine.add_recent_search "math" ["chess", "math"])
      ["chess", "math"] :=
  ⟨claim_C4.1 ⟨[], [], []⟩ [("math", none), ("chess", none), ("math", none)] rfl,
   claim_C4.2.1 "math" ["chess", "math"],
   claim_C4.2.2.1 "math" ["chess", "math"] (by decide),
   claim_C4.2.2.2.1 "math" ["chess", "math"] (by decide) (by decide) (by decide)⟩

/- ## Claim C5 -/

/-- Follows the spec's words (claim C5): the exact-arithmetic relevance
score — 10 for a name hit, 5 for a description hit, 3 for a category hit,
plus `popularity × 0.1` — scaled by 10 so that it stays an integer
(equality and order of exact scores are preserved by the scaling). -/
def relevance_score_exact10 (query_lower : String) (a : Activity) : Int :=
  (if strContains (pyLower a.name) query_lower then 100 else 0)
  + (if strContains (pyLower a.description) query_lower then 50 else 0)
  + (if strContains (pyLower (a.category.getD "")) query_lower then 30 else 0)
  + a.popularity

/-- Description hit (+5.0) and popularity 1: float score `5.0 + 1*0.1`,
exact score 5.1. -/
def c5_board : Activity :=
  { id := some "b1"
    name := "Board Gamers"
    description := "We hold tournaments weekly"
    category := some "Leisure"
    schedule := none
    tags := []
    available := none
    popularity := 1
    max_participants := 10
    participants := [] }

/-- No text hit but popularity 51: float score `0.0 + 51*0.1`, exact score
also 5.1; the query word reaches it only through its indexed tags. -/
def c5_quiet : Activity :=
  { id := some "a1"
    name := "Quiet Games"
    description := "A calm space"
    category := some "Leisure"
    schedule := none
    tags := ["tournaments"]
    available := none
    popularity := 51
    max_participants := 10
    participants := [] }

/-- An engine holding `c5_board` before `c5_quiet`, with both ids indexed
under the word "tournaments" (as `index_activity` would do). -/
def c5_engine : SearchEngine :=
  { activities := [c5_board, c5_quiet]
    search_index := [("tournaments", {some "b1", some "a1"})]
    recent_searches := [] }

/-- C5 is false as stated: the two activities tie exactly at relevance
score 5.1 under the claim's exact formula, so the claimed stable sort must
keep the catalog order `[c5_board, c5_quiet]`; but the floats
`5.0 + 1*0.1` and `51*0.1` round differently (the latter is strictly
larger), so the program returns `[c5_quiet, c5_board]`, reordering an
exact-score tie. -/
theorem claim_C5_counterexample :
    relevance_score_exact10 (pyLower "tournaments") c5_board
      = relevance_score_exact10 (pyLower "tournaments") c5_quiet ∧
    (SearchEngine.search c5_engine "tournaments" none).2 = [c5_quiet, c5_board] := by
  constructor
  · decide
  · decide

/-- C5 (amended): for a non-blank query, `search` orders its surviving
results by descending relevance score computed with the source's IEEE-754
double arithmetic (+10.0 / +5.0 / +3.0 and `popularity * 0.1`, each step
rounded); ties in the **float** score keep their prior relative order, and
the returned records are exactly a permutation of the surviving records —
in particular no score field is added to them.  Ties of the exact-arithmetic
score may be reordered when float rounding separates them. -/
theorem claim_C5 :
    ∀ (st : SearchEngine) (query : String) (f : Option Filters),
      isBlank query = false →
      ((SearchEngine.search st query f).2.Pairwise
        (fun a b => SearchEngine.relevance_score (pyLower query) b ≤
          SearchEngine.relevance_score (pyLower query) a)) ∧
      List.Perm (SearchEngine.search st query f).2
        (SearchEngine.search_pre_rank st query f) ∧
      (∀ s : Int, (SearchEngine.search st query f).2.filter
          (fun a => decide (SearchEngine.relevance_score (pyLower query) a = s))
        = (SearchEngine.search_pre_rank st query f).filter
          (fun a => decide (SearchEngine.relevance_score (pyLower query) a = s))) := by
  intro st query f hq
  rw [SearchEngine.search_of_not_blank st hq]
  refine ⟨?_, ?_, ?_⟩
  · exact sortDesc_pairwise _ _
  · exact sortDesc_perm _ _
  · intro s
    exact sortDesc_filter_key _ _ s

/-- Witness for C5 at the counterexample engine and the query
"tournaments" (whose two results realize a strict float-score descent). -/
theorem claim_C5_witness :
    ((SearchEngine.search c5_engine "tournaments" none).2.Pairwise
      (fun a b => SearchEngine.relevance_score (pyLower "tournaments") b ≤
        SearchEngine.relevance_score (pyLower "tournaments") a)) ∧
    List.Perm (SearchEngine.search c5_engine "tournaments" none).2
      (SearchEngine.search_pre_rank c5_engine "tournaments" none) ∧
    (SearchEngine.search c5_engine "tournaments" none).2.filter
        (fun a => decide (SearchEngine.relevance_score (pyLower "tournaments") a = 0))
      = (SearchEngine.search_pre_rank c5_engine "tournaments" none).filter
        (fun a => decide (SearchEngine.relevance_score (pyLower "tournaments") a = 0)) :=
  ⟨(claim_C5 c5_engine "tournaments" none (by decide)).1,
   (claim_C5 c5_engine "tournaments" none (by decide)).2.1,
   (claim_C5 c5_engine "tournaments" none (by decide)).2.2 0⟩

/- ## Claim C6 -/

/-- A two-entry catalog whose insertion order disagrees with
case-insensitive name order. -/
def c6_catalog : List (String × App.ActivityData) :=
  [("Basketball Team",
    { description := "Practice and play basketball"
      schedule := "Wednesdays, 3:30 PM - 5:00 PM"
      max_participants := 15
      participants := []
      category := "Sports" }),
   ("art Club",
    { description := "Painting and drawing"
      schedule := "Thursdays, 3:30 PM - 5:00 PM"
      max_participants := 15
      participants := []
      category := "Arts" })]

/-- C6: with an explicit sort key, `search_activities` orders results by the
requested key — `name` ascending case-insensitively, `participants`
descending by count, `availability` descending by free capacity — with ties
keeping their pre-sort (catalog) relative order; on the example catalogs,
"art Club" sorts before "Basketball Team" under `name`, and "GitHub Skills"
ranks above "Chess Club" under `availability` on the default catalog. -/
theorem claim_C6 :
    (∀ (cat : List (String × App.ActivityData)) (q c : Option String)
        (av : Option Bool) (day : Option String),
      (App.search_activities cat q c av App.SortBy.name day).results.Pairwise
        (fun x y => (pyLower x.1).data ≤ (pyLower y.1).data)) ∧
    (∀ cat q c av day,
      (App.search_activities cat q c av App.SortBy.participants day).results.Pairwise
        (fun x y => y.2.participants.length ≤ x.2.participants.length)) ∧
    (∀ cat q c av day,
      (App.search_activities cat q c av App.SortBy.availability day).results.Pairwise
        (fun x y => (y.2.max_participants : Int) - y.2.participants.length ≤
          (x.2.max_participants : Int) - x.2.participants.length)) ∧
    (∀ cat q c av day (key : List Char),
      (App.search_activities cat q c av App.SortBy.name day).results.filter
          (fun p => decide ((pyLower p.1).data = key))
        = (App.search_filtered cat q c av day).filter
          (fun p => decide ((pyLower p.1).data = key))) ∧
    (∀ cat q c av day (n : Nat),
      (App.search_activities cat q c av App.SortBy.participants day).results.filter
          (fun p => decide (p.2.participants.length = n))
        = (App.search_filtered cat q c av day).filter
          (fun p => decide (p.2.participants.length = n))) ∧
    (∀ cat q c av day (z : Int),
      (App.search_activities cat q c av App.SortBy.availability day).results.filter
          (fun p => decide ((p.2.max_participants : Int) - p.2.participants.length = z))
        = (App.search_filtered cat q c av day).filter
          (fun p => decide ((p.2.max_participants : Int) - p.2.participants.length = z))) ∧
    ((App.search_activities c6_catalog none none none App.SortBy.name none).results.map
        Prod.fst = ["art Club", "Basketball Team"]) ∧
    (((App.search_activities App.activities none none none App.SortBy.availability
        none).results.map Prod.fst).indexOf "GitHub Skills"
      < ((App.search_activities App.activities none none none App.SortBy.availability
        none).results.map Prod.fst).indexOf "Chess Club") := by
  refine ⟨?_, ?_, ?_, ?_, ?_, ?_, by decide, by decide⟩
  · intro cat q c av day
    exact sortAsc_pairwise (fun p => (pyLower p.1).data) (App.search_filtered cat q c av day)
  · intro cat q c av day
    exact sortDesc_pairwise (fun p => p.2.participants.length)
      (App.search_filtered cat q c av day)
  · intro cat q c av day
    exact sortDesc_pairwise
      (fun p => (p.2.max_participants : Int) - p.2.participants.length)
      (App.search_filtered cat q c av day)
  · intro cat q c av day key
    exact sortAsc_filter_key (fun p => (pyLower p.1).data)
      (App.search_filtered cat q c av day) key
  · intro cat q c av day n
    exact sortDesc_filter_key (fun p => p.2.participants.length)
      (App.search_filtered cat q c av day) n
  · intro cat q c av day z
    exact sortDesc_filter_key
      (fun p => (p.2.max_participants : Int) - p.2.participants.length)
      (App.search_filtered cat q c av day) z

/- ## Claim C7 -/

namespace FilterManager

theorem hashable_false_iff {v : PyVal} :
    v.hashable = false ↔ ∃ l, v = PyVal.vList l := by
  cases v with
  | vList l => simp [PyVal.hashable]
  | vNone => simp [PyVal.hashable]
  | vBool b => simp [PyVal.hashable]
  | vInt n => simp [PyVal.hashable]
  | vStr s => simp [PyVal.hashable]

theorem mem_category_check_ok {cats : Finset String} {o : Option PyVal}
    {l : List (String × PyVal)} {p : String × PyVal}
    (hok : category_check cats o = Except.ok l) (hp : p ∈ l) :
    ∃ c, o = some (PyVal.vStr c) ∧ c ∈ cats ∧ p = ("category", PyVal.vStr c) := by
  rcases o with _ | v
  · simp [category_check] at hok
    subst hok
    cases hp
  · cases v with
    | vStr s =>
      have hl : (if s ∈ cats then [("category", PyVal.vStr s)] else []) = l :=
        Except.ok.inj hok
      by_cases hmem : s ∈ cats
      · rw [if_pos hmem] at hl
        subst hl
        simp only [List.mem_singleton] at hp
        exact ⟨s, rfl, hmem, hp⟩
      · rw [if_neg hmem] at hl
        subst hl
        cases hp
    | vNone => simp [category_check] at hok; subst hok; cases hp
    | vBool b => simp [category_check] at hok; subst hok; cases hp
    | vInt n => simp [category_check] at hok; subst hok; cases hp
    | vList es => simp [category_check] at hok

theorem mem_schedule_check_ok {scheds : Finset String} {o : Option PyVal}
    {l : List (String × PyVal)} {p : String × PyVal}
    (hok : schedule_check scheds o = Except.ok l) (hp : p ∈ l) :
    ∃ s, o = some (PyVal.vStr s) ∧ s ∈ scheds ∧ p = ("schedule", PyVal.vStr s) := by
  rcases o with _ | v
  · simp [schedule_check] at hok
    subst hok
    cases hp
  · cases v with
    | vStr s =>
      have hl : (if s ∈ scheds then [("schedule", PyVal.vStr s)] else []) = l :=
        Except.ok.inj hok
      by_cases hmem : s ∈ scheds
      · rw [if_pos hmem] at hl
        subst hl
        simp only [List.mem_singleton] at hp
        exact ⟨s, rfl, hmem, hp⟩
      · rw [if_neg hmem] at hl
        subst hl
        cases hp
    | vNone => simp [schedule_check] at hok; subst hok; cases hp
    | vBool b => simp [schedule_check] at hok; subst hok; cases hp
    | vInt n => simp [schedule_check] at hok; subst hok; cases hp
    | vList es => simp [schedule_check] at hok

theorem mem_availability_check {o : Option PyVal} {p : String × PyVal}
    (h : p ∈ availability_check o) :
    ∃ b, o = some (PyVal.vBool b) ∧ p = ("availability", PyVal.vBool b) := by
  rcases o with _ | v
  · simp [availability_check] at h
  · cases v with
    | vBool b => simp_all [availability_check]
    | vNone => simp [availability_check] at h
    | vStr s => simp [availability_check] at h
    | vInt n => simp [availability_check] at h
    | vList es => simp [availability_check] at h

theorem mem_min_popularity_check {o : Option PyVal} {p : String × PyVal}
    (h : p ∈ min_popularity_check o) :
    ∃ v n, o = some v ∧ py_int v = some n ∧ p = ("min_popularity", PyVal.vInt n) := by
  rcases o with _ | v
  · simp [min_popularity_check] at h
  · have h2 : p ∈ (match py_int v with
        | some n => [("min_popularity", PyVal.vInt n)]
        | none => []) := h
    rcases hpi : py_int v with _ | n
    · rw [hpi] at h2
      simp at h2
    · rw [hpi] at h2
      simp at h2
      exact ⟨v, n, rfl, hpi, by simp [h2]⟩

theorem category_check_ok_of_hashable (cats : Finset String) {o : Option PyVal}
    (h : ∀ v, o = some v → v.hashable = true) :
    ∃ l, category_check cats o = Except.ok l := by
  rcases o with _ | v
  · exact ⟨[], rfl⟩
  · cases v with
    | vStr s => exact ⟨_, rfl⟩
    | vNone => exact ⟨[], rfl⟩
    | vBool b => exact ⟨[], rfl⟩
    | vInt n => exact ⟨[], rfl⟩
    | vList es => cases h (PyVal.vList es) rfl

theorem schedule_check_ok_of_hashable (scheds : Finset String) {o : Option PyVal}
    (h : ∀ v, o = some v → v.hashable = true) :
    ∃ l, schedule_check scheds o = Except.ok l := by
  rcases o with _ | v
  · exact ⟨[], rfl⟩
  · cases v with
    | vStr s => exact ⟨_, rfl⟩
    | vNone => exact ⟨[], rfl⟩
    | vBool b => exact ⟨[], rfl⟩
    | vInt n => exact ⟨[], rfl⟩
    | vList es => cases h (PyVal.vList es) rfl

theorem validate_filters_ok_inv {fm : FilterManager}
    {filters : List (String × PyVal)} {out : List (String × PyVal)}
    (h : validate_filters fm filters = Except.ok out) :
    ∃ l1 l2, category_check fm.available_categories (dictGet filters "category")
        = Except.ok l1 ∧
      schedule_check fm.available_schedules (dictGet filters "schedule")
        = Except.ok l2 ∧
      out = l1 ++ l2 ++ availability_check (dictGet filters "availability")
        ++ min_popularity_check (dictGet filters "min_popularity") := by
  unfold validate_filters at h
  rcases hc : category_check fm.available_categories (dictGet filters "category") with
    e | l1
  · rw [hc] at h
    cases h
  · rw [hc] at h
    rcases hs : schedule_check fm.available_schedules (dictGet filters "schedule") with
      e | l2
    · rw [hs] at h
      cases h
    · rw [hs] at h
      exact ⟨l1, l2, rfl, rfl, (Except.ok.inj h).symm⟩

end FilterManager

/-- A filter manager knowing two categories and one schedule. -/
def demo_fm : FilterManager :=
  { available_categories := {"Academic", "Arts"}
    available_schedules := {"Fridays, 3:30 PM - 5:00 PM"} }

/-- C7 is false as stated: `validate_filters` is not error-free for every
input filter map — a container (unhashable) value under `category` makes
the source's membership test `filters['category'] in
self.available_categories` raise `TypeError`, which nothing catches. -/
theorem claim_C7_counterexample :
    FilterManager.validate_filters demo_fm [("category", PyVal.vList [])]
      = Except.error PyError.typeError := rfl

/-- C7 (amended): for every input filter map whose `category` and
`schedule` values are hashable — in particular any map of None / bool /
int / string values — `validate_filters` raises nothing and returns a map
containing only the recognized keys with well-typed values (a known
category string, a known schedule string, a boolean, an integer), every
entry with an invalid value being silently omitted; an unhashable
(container) value under `category` or `schedule` instead propagates a
`TypeError` from the set-membership test. -/
theorem claim_C7 :
    ∀ (fm : FilterManager) (filters : List (String × PyVal)),
      ((∀ v, FilterManager.dictGet filters "category" = some v → v.hashable = true) →
       (∀ v, FilterManager.dictGet filters "schedule" = some v → v.hashable = true) →
       ∃ out, FilterManager.validate_filters fm filters = Except.ok out) ∧
      (∀ out, FilterManager.validate_filters fm filters = Except.ok out →
        (∀ p ∈ out,
          (p.1 = "category" ∧ ∃ c, p.2 = PyVal.vStr c ∧ c ∈ fm.available_categories) ∨
          (p.1 = "schedule" ∧ ∃ s, p.2 = PyVal.vStr s ∧ s ∈ fm.available_schedules) ∨
          (p.1 = "availability" ∧ ∃ b, p.2 = PyVal.vBool b) ∨
          (p.1 = "min_popularity" ∧ ∃ n, p.2 = PyVal.vInt n)) ∧
        (∀ v, FilterManager.dictGet filters "availability" = some v →
          (∀ b, v ≠ PyVal.vBool b) → ∀ p ∈ out, p.1 ≠ "availability") ∧
        (∀ v, FilterManager.dictGet filters "min_popularity" = some v →
          py_int v = none → ∀ p ∈ out, p.1 ≠ "min_popularity")) ∧
      (∀ v, FilterManager.dictGet filters "category" = some v → v.hashable = false →
        FilterManager.validate_filters fm filters = Except.error PyError.typeError) ∧
      ((∀ v, FilterManager.dictGet filters "category" = some v → v.hashable = true) →
       ∀ v, FilterManager.dictGet filters "schedule" = some v → v.hashable = false →
        FilterManager.validate_filters fm filters = Except.error PyError.typeError) := by
  intro fm filters
  refine ⟨?_, ?_, ?_, ?_⟩
  · intro hc hs
    obtain ⟨l1, h1⟩ := FilterManager.category_check_ok_of_hashable
      fm.available_categories hc
    obtain ⟨l2, h2⟩ := FilterManager.schedule_check_ok_of_hashable
      fm.available_schedules hs
    exact ⟨l1 ++ l2
      ++ FilterManager.availability_check (FilterManager.dictGet filters "availability")
      ++ FilterManager.min_popularity_check (FilterManager.dictGet filters "min_popularity"),
      by unfold FilterManager.validate_filters; rw [h1, h2]⟩
  · intro out hout
    obtain ⟨l1, l2, h1, h2, rfl⟩ := FilterManager.validate_filters_ok_inv hout
    have memcases : ∀ p, p ∈ l1 ++ l2
          ++ FilterManager.availability_check (FilterManager.dictGet filters "availability")
          ++ FilterManager.min_popularity_check (FilterManager.dictGet filters "min_popularity") →
        p ∈ l1 ∨ p ∈ l2 ∨
        p ∈ FilterManager.availability_check (FilterManager.dictGet filters "availability") ∨
        p ∈ FilterManager.min_popularity_check (FilterManager.dictGet filters "min_popularity") := by
      intro p hp
      simpa [List.mem_append, or_assoc] using hp
    refine ⟨?_, ?_, ?_⟩
    · intro p hp
      rcases memcases p hp with h | h | h | h
      · obtain ⟨c, _, hc, rfl⟩ := FilterManager.mem_category_check_ok h1 h
        exact Or.inl ⟨rfl, c, rfl, hc⟩
      · obtain ⟨s, _, hs, rfl⟩ := FilterManager.mem_schedule_check_ok h2 h
        exact Or.inr (Or.inl ⟨rfl, s, rfl, hs⟩)
      · obtain ⟨b, _, rfl⟩ := FilterManager.mem_availability_check h
        exact Or.inr (Or.inr (Or.inl ⟨rfl, b, rfl⟩))
      · obtain ⟨v, n, _, _, rfl⟩ := FilterManager.mem_min_popularity_check h
        exact Or.inr (Or.inr (Or.inr ⟨rfl, n, rfl⟩))
    · intro v hv hnb p hp
      rcases memcases p hp with h | h | h | h
      · obtain ⟨c, _, _, rfl⟩ := FilterManager.mem_category_check_ok h1 h
        simp
      · obtain ⟨s, _, _, rfl⟩ := FilterManager.mem_schedule_check_ok h2 h
        simp
      · obtain ⟨b, hav, rfl⟩ := FilterManager.mem_availability_check h
        rw [hv] at hav
        exact absurd (Option.some.inj hav) (hnb b)
      · obtain ⟨w, n, _, _, rfl⟩ := FilterManager.mem_min_popularity_check h
        simp
    · intro v hv hpi p hp
      rcases memcases p hp with h | h | h | h
      · obtain ⟨c, _, _, rfl⟩ := FilterManager.mem_category_check_ok h1 h
        simp
      · obtain ⟨s, _, _, rfl⟩ := FilterManager.mem_schedule_check_ok h2 h
        simp
      · obtain ⟨b, _, rfl⟩ := FilterManager.mem_availability_check h
        simp
      · obtain ⟨w, n, hw, hpw, rfl⟩ := FilterManager.mem_min_popularity_check h
        rw [hv] at hw
        rw [Option.some.inj hw] at hpi
        rw [hpi] at hpw
        cases hpw
  · intro v hv hunh
    obtain ⟨l, rfl⟩ := FilterManager.hashable_false_iff.mp hunh
    unfold FilterManager.validate_filters
    rw [hv]
    rfl
  · intro hc v hv hunh
    obtain ⟨l1, h1⟩ := FilterManager.category_check_ok_of_hashable
      fm.available_categories hc
    obtain ⟨l, rfl⟩ := FilterManager.hashable_false_iff.mp hunh
    unfold FilterManager.validate_filters
    rw [h1, hv]
    rfl

/-- A client filter dict of hashable values: a known category, an
underscore-grouped integer string, and a non-boolean availability. -/
def c7_good_filters : List (String × PyVal) :=
  [("category", PyVal.vStr "Academic"), ("min_popularity", PyVal.vStr "4_2"),
   ("availability", PyVal.vStr "yes")]

/-- The sanitized output for `c7_good_filters`: the category is kept, the
string "4_2" converts to the integer 42 (CPython underscore grouping) and
is kept, and the ill-typed availability is silently omitted. -/
def c7_good_out : List (String × PyVal) :=
  [("category", PyVal.vStr "Academic"), ("min_popularity", PyVal.vInt 42)]

/-- Witness for C7 (amended) at a concrete manager and input: validation
returns the sanitized map, and the invalid availability key is absent from
it. -/
theorem claim_C7_witness :
    FilterManager.validate_filters demo_fm c7_good_filters = Except.ok c7_good_out ∧
    "availability" ∉ c7_good_out.map Prod.fst := by
  have hok : FilterManager.validate_filters demo_fm c7_good_filters
      = Except.ok c7_good_out := rfl
  refine ⟨hok, ?_⟩
  intro hmem
  rcases List.mem_map.mp hmem with ⟨p, hp, hkey⟩
  exact ((claim_C7 demo_fm c7_good_filters).2.1 c7_good_out hok).2.1
    (PyVal.vStr "yes") rfl (fun b h => PyVal.noConfusion h) p hp hkey

/- ## Claims C8 and C10 -/

namespace App

theorem signup_not_found {cat : List (String × ActivityData)}
    {activity_name email : String} (h : lookup_activity cat activity_name = none) :
    signup_for_activity cat activity_name email =
      (cat, some ApiError.activity_not_found) := by
  unfold signup_for_activity
  rw [h]

theorem unregister_not_found {cat : List (String × ActivityData)}
    {activity_name email : String} (h : lookup_activity cat activity_name = none) :
    unregister_from_activity cat activity_name email =
      (cat, some ApiError.activity_not_found) := by
  unfold unregister_from_activity
  rw [h]

theorem signup_already {cat : List (String × ActivityData)}
    {activity_name email : String} {d : ActivityData}
    (h : lookup_activity cat activity_name = some d)
    (hmem : email ∈ d.participants) :
    signup_for_activity cat activity_name email =
      (cat, some ApiError.already_signed_up) := by
  unfold signup_for_activity
  rw [h]
  simp only
  rw [if_pos (List.elem_iff.mpr hmem)]

theorem unregister_not_signed {cat : List (String × ActivityData)}
    {activity_name email : String} {d : ActivityData}
    (h : lookup_activity cat activity_name = some d)
    (hmem : email ∉ d.participants) :
    unregister_from_activity cat activity_name email =
      (cat, some ApiError.not_signed_up) := by
  have hcont : (d.participants.contains email) = false := by
    rw [Bool.eq_false_iff]
    intro hc
    exact hmem (List.elem_iff.mp hc)
  unfold unregister_from_activity
  rw [h]
  simp only [hcont]
  rfl

theorem signup_success {cat : List (String × ActivityData)}
    {activity_name email : String} {d : ActivityData}
    (h : lookup_activity cat activity_name = some d)
    (hmem : email ∉ d.participants) :
    signup_for_activity cat activity_name email =
      (update_activity cat activity_name
        { d with participants := d.participants ++ [email] }, none) := by
  have hcont : (d.participants.contains email) = false := by
    rw [Bool.eq_false_iff]
    intro hc
    exact hmem (List.elem_iff.mp hc)
  unfold signup_for_activity
  rw [h]
  simp only [hcont]
  rfl

theorem lookup_update_activity (name : String) (d : ActivityData) :
    ∀ (cat : List (String × ActivityData)) (d0 : ActivityData),
      lookup_activity cat name = some d0 →
      lookup_activity (update_activity cat name d) name = some d := by
  intro cat
  induction cat with
  | nil => intro d0 h; simp [lookup_activity] at h
  | cons p rest ih =>
    intro d0 h
    by_cases hp : (p.1 == name) = true
    · unfold update_activity
      rw [if_pos hp]
      unfold lookup_activity
      rw [if_pos hp]
    · unfold update_activity
      rw [if_neg hp]
      unfold lookup_activity at h ⊢
      rw [if_neg hp] at h ⊢
      exact ih d0 h

theorem forall₂_refl_frame (name : String) (cat : List (String × ActivityData)) :
    List.Forall₂ (fun p q => p.1 = q.1 ∧ (p.1 ≠ name → p = q) ∧
      p.2.description = q.2.description ∧ p.2.schedule = q.2.schedule ∧
      p.2.max_participants = q.2.max_participants ∧ p.2.category = q.2.category)
      cat cat :=
  List.forall₂_same.mpr (fun _ _ => ⟨rfl, fun _ => rfl, rfl, rfl, rfl, rfl⟩)

theorem update_activity_frame (name : String) (ps : List String) :
    ∀ (cat : List (String × ActivityData)) (d : ActivityData),
      lookup_activity cat name = some d →
      List.Forall₂ (fun p q => p.1 = q.1 ∧ (p.1 ≠ name → p = q) ∧
        p.2.description = q.2.description ∧ p.2.schedule = q.2.schedule ∧
        p.2.max_participants = q.2.max_participants ∧ p.2.category = q.2.category)
        cat (update_activity cat name { d with participants := ps }) := by
  intro cat
  induction cat with
  | nil => intro d h; simp [lookup_activity] at h
  | cons p rest ih =>
    intro d h
    by_cases hp : (p.1 == name) = true
    · unfold update_activity
      rw [if_pos hp]
      unfold lookup_activity at h
      rw [if_pos hp] at h
      have hpd : p.2 = d := by simpa using h
      have hpname : p.1 = name := by simpa using hp
      refine List.Forall₂.cons ⟨rfl, fun hne => absurd hpname hne, ?_, ?_, ?_, ?_⟩
        (forall₂_refl_frame name rest)
      all_goals rw [hpd]
    · unfold update_activity
      rw [if_neg hp]
      unfold lookup_activity at h
      rw [if_neg hp] at h
      exact List.Forall₂.cons ⟨rfl, fun _ => rfl, rfl, rfl, rfl, rfl⟩ (ih d h)

end App

/-- C8: signup fails with `activity_not_found` on an unknown activity and
with `already_signed_up` on a duplicate email, in both cases with the
catalog unchanged; a successful signup appends exactly the given email
(raising that activity's participant count by exactly one) and an identical
retry fails instead of duplicating; unregister of a non-member fails with
`not_signed_up` leaving the catalog unchanged. -/
theorem claim_C8 :
    ∀ (cat : List (String × App.ActivityData)) (activity_name email : String),
      (App.lookup_activity cat activity_name = none →
        App.signup_for_activity cat activity_name email =
          (cat, some App.ApiError.activity_not_found) ∧
        App.unregister_from_activity cat activity_name email =
          (cat, some App.ApiError.activity_not_found)) ∧
      (∀ d, App.lookup_activity cat activity_name = some d →
        email ∈ d.participants →
        App.signup_for_activity cat activity_name email =
          (cat, some App.ApiError.already_signed_up)) ∧
      (∀ d, App.lookup_activity cat activity_name = some d →
        email ∉ d.participants →
        (App.signup_for_activity cat activity_name email).2 = none ∧
        App.lookup_activity (App.signup_for_activity cat activity_name email).1
          activity_name = some { d with participants := d.participants ++ [email] } ∧
        (App.lookup_activity (App.signup_for_activity cat activity_name email).1
          activity_name).map (fun r => r.participants.length)
          = some (d.participants.length + 1) ∧
        (App.signup_for_activity
          (App.signup_for_activity cat activity_name email).1 activity_name
          email).2 = some App.ApiError.already_signed_up) ∧
      (∀ d, App.lookup_activity cat activity_name = some d →
        email ∉ d.participants →
        App.unregister_from_activity cat activity_name email =
          (cat, some App.ApiError.not_signed_up)) := by
  intro cat activity_name email
  refine ⟨?_, ?_, ?_, ?_⟩
  · intro h
    exact ⟨App.signup_not_found h, App.unregister_not_found h⟩
  · intro d h hmem
    exact App.signup_already h hmem
  · intro d h hmem
    have hs := App.signup_success h hmem
    have hlook : App.lookup_activity
        (App.signup_for_activity cat activity_name email).1 activity_name =
        some { d with participants := d.participants ++ [email] } := by
      rw [hs]
      exact App.lookup_update_activity activity_name _ cat d h
    refine ⟨by rw [hs], hlook, by rw [hlook]; simp, ?_⟩
    rw [App.signup_already hlook (by simp)]
  · intro d h hmem
    exact App.unregister_not_signed h hmem

/-- The "Chess Club" record of the default catalog. -/
def chess_club_data : App.ActivityData :=
  { description := "Learn strategies and compete in chess tournaments"
    schedule := "Fridays, 3:30 PM - 5:00 PM"
    max_participants := 12
    participants := ["michael@mergington.edu", "daniel@mergington.edu"]
    category := "Academic" }

/-- Witness for C8 at the default catalog: unknown activity, duplicate
signup, successful signup plus failing retry, and unregister of a
non-member. -/
theorem claim_C8_witness :
    App.signup_for_activity App.activities "Quidditch" "new@school.edu" =
      (App.activities, some App.ApiError.activity_not_found) ∧
    App.signup_for_activity App.activities "Chess Club" "michael@mergington.edu" =
      (App.activities, some App.ApiError.already_signed_up) ∧
    (App.signup_for_activity App.activities "Chess Club" "new@school.edu").2 = none ∧
    App.lookup_activity
      (App.signup_for_activity App.activities "Chess Club" "new@school.edu").1
      "Chess Club" = some { chess_club_data with
        participants := chess_club_data.participants ++ ["new@school.edu"] } ∧
    (App.signup_for_activity
      (App.signup_for_activity App.activities "Chess Club" "new@school.edu").1
      "Chess Club" "new@school.edu").2 = some App.ApiError.already_signed_up ∧
    App.unregister_from_activity App.activities "Chess Club" "absent@mergington.edu" =
      (App.activities, some App.ApiError.not_signed_up) :=
  ⟨((claim_C8 App.activities "Quidditch" "new@school.edu").1 (by decide)).1,
   (claim_C8 App.activities "Chess Club" "michael@mergington.edu").2.1
     chess_club_data (by decide) (by decide),
   ((claim_C8 App.activities "Chess Club" "new@school.edu").2.2.1
     chess_club_data (by decide) (by decide)).1,
   ((claim_C8 App.activities "Chess Club" "new@school.edu").2.2.1
     chess_club_data (by decide) (by decide)).2.1,
   ((claim_C8 App.activities "Chess Club" "new@school.edu").2.2.1
     chess_club_data (by decide) (by decide)).2.2.2,
   (claim_C8 App.activities "Chess Club" "absent@mergington.edu").2.2.2
     chess_club_data (by decide) (by decide)⟩

/-- C10: signup and unregister touch only the named activity's participant
list: every call, successful or failing, leaves every other catalog entry
identical, and leaves the named entry's key, description, schedule,
max_participants and category unchanged. -/
theorem claim_C10 :
    ∀ (cat : List (String × App.ActivityData)) (activity_name email : String),
      List.Forall₂ (fun p q => p.1 = q.1 ∧ (p.1 ≠ activity_name → p = q) ∧
        p.2.description = q.2.description ∧ p.2.schedule = q.2.schedule ∧
        p.2.max_participants = q.2.max_participants ∧ p.2.category = q.2.category)
        cat (App.signup_for_activity cat activity_name email).1 ∧
      List.Forall₂ (fun p q => p.1 = q.1 ∧ (p.1 ≠ activity_name → p = q) ∧
        p.2.description = q.2.description ∧ p.2.schedule = q.2.schedule ∧
        p.2.max_participants = q.2.max_participants ∧ p.2.category = q.2.category)
        cat (App.unregister_from_activity cat activity_name email).1 := by
  intro cat activity_name email
  constructor
  · rcases h : App.lookup_activity cat activity_name with _ | d
    · rw [App.signup_not_found h]
      exact App.forall₂_refl_frame activity_name cat
    · by_cases hmem : email ∈ d.participants
      · rw [App.signup_already h hmem]
        exact App.forall₂_refl_frame activity_name cat
      · rw [App.signup_success h hmem]
        exact App.update_activity_frame activity_name _ cat d h
  · rcases h : App.lookup_activity cat activity_name with _ | d
    · rw [App.unregister_not_found h]
      exact App.forall₂_refl_frame activity_name cat
    · by_cases hmem : email ∈ d.participants
      · have hcont : (d.participants.contains email) = true := List.elem_iff.mpr hmem
        have : App.unregister_from_activity cat activity_name email =
            (App.update_activity cat activity_name
              { d with participants := d.participants.erase email }, none) := by
          unfold App.unregister_from_activity
          rw [h]
          simp only [hcont]
          rfl
        rw [this]
        exact App.update_activity_frame activity_name _ cat d h
      · rw [App.unregister_not_signed h hmem]
        exact App.forall₂_refl_frame activity_name cat

/- ## Claim C9 -/

namespace SearchEngine

/-- Characterizes the index-word accumulation loop of `get_suggestions`:
with duplicate-free index keys (a dict invariant), the loop appends, in
index order, exactly the keys passing `P` that are not already in the
accumulated list. -/
theorem suggest_fold_eq (P : String → Bool) :
    ∀ (idx : List (String × Finset (Option String))) (init : List String),
      (idx.map Prod.fst).Nodup →
      idx.foldl (fun acc p =>
          if P p.1 && !(acc.contains p.1) then acc ++ [p.1] else acc) init
        = init ++ (idx.map Prod.fst).filter (fun w => P w && !(init.contains w)) := by
  intro idx
  induction idx with
  | nil => intro init _; simp
  | cons p rest ih =>
    intro init hnd
    rw [List.map_cons, List.nodup_cons] at hnd
    obtain ⟨hp, hrest⟩ := hnd
    simp only [List.foldl_cons]
    by_cases hP : (P p.1 && !(init.contains p.1)) = true
    · rw [if_pos hP, ih (init ++ [p.1]) hrest]
      have hfilter : (rest.map Prod.fst).filter
            (fun w => P w && !((init ++ [p.1]).contains w))
          = (rest.map Prod.fst).filter (fun w => P w && !(init.contains w)) := by
        apply List.filter_congr
        intro w hw
        have hne : (w == p.1) = false := by
          simp only [beq_eq_false_iff_ne]
          intro hcon
          exact hp (hcon ▸ hw)
        have : ((init ++ [p.1]).contains w) = (init.contains w) := by
          rw [List.contains_eq_any_beq, List.any_append]
          simp only [List.any_cons, List.any_nil, Bool.or_false]
          rw [List.contains_eq_any_beq]
          simp [hne]
        rw [this]
      rw [hfilter, List.map_cons, List.filter_cons, hP]
      simp [List.append_assoc]
    · rw [if_neg hP, ih init hrest, List.map_cons, List.filter_cons]
      have hfalse : (P p.1 && !(init.contains p.1)) = false := Bool.eq_false_iff.mpr hP
      rw [hfalse]
      simp

end SearchEngine

/-- C9: with an empty partial query, `get_suggestions` returns (at most) the
5 most-recent searches in recency order; with a non-empty partial query it
returns, capped at 5, first the recent searches containing the lowercased
partial query as a substring (in recency order), then the index words
starting with the lowercased partial query that are not already listed, in
index order. -/
theorem claim_C9 :
    (∀ st : SearchEngine,
      SearchEngine.get_suggestions st "" = st.recent_searches.take 5 ∧
      (SearchEngine.get_suggestions st "").length ≤ 5) ∧
    (∀ (st : SearchEngine) (pq : String), pq ≠ "" →
      (st.search_index.map Prod.fst).Nodup →
      SearchEngine.get_suggestions st pq =
        (st.recent_searches.filter (fun s => strContains (pyLower s) (pyLower pq))
          ++ (st.search_index.map Prod.fst).filter
            (fun w => strStartsWith w (pyLower pq)
              && !((st.recent_searches.filter
                (fun s => strContains (pyLower s) (pyLower pq))).contains w))).take 5 ∧
      (SearchEngine.get_suggestions st pq).length ≤ 5) := by
  constructor
  · intro st
    constructor
    · rfl
    · show (st.recent_searches.take 5).length ≤ 5
      rw [List.length_take]
      exact min_le_left _ _
  · intro st pq hne hnd
    have hbeq : (pq == "") = false := by
      simp only [beq_eq_false_iff_ne]
      exact hne
    have heq : SearchEngine.get_suggestions st pq =
        (st.recent_searches.filter (fun s => strContains (pyLower s) (pyLower pq))
          ++ (st.search_index.map Prod.fst).filter
            (fun w => strStartsWith w (pyLower pq)
              && !((st.recent_searches.filter
                (fun s => strContains (pyLower s) (pyLower pq))).contains w))).take 5 := by
      unfold SearchEngine.get_suggestions
      rw [hbeq]
      simp only [Bool.false_eq_true, if_false]
      rw [SearchEngine.suggest_fold_eq (fun w => strStartsWith w (pyLower pq))
        st.search_index _ hnd]
    refine ⟨heq, ?_⟩
    rw [heq, List.length_take]
    exact min_le_left _ _

/-- Witness for C9: the demo engine with two recent searches and the partial
query "ch". -/
theorem claim_C9_witness :
    SearchEngine.get_suggestions
      { demo_engine with recent_searches := ["chess club", "math"] } ""
      = ["chess club", "math"] ∧
    SearchEngine.get_suggestions
      { demo_engine with recent_searches := ["chess club", "math"] } "ch"
      = ((["chess club", "math"] : List String).filter
          (fun s => strContains (pyLower s) (pyLower "ch"))
        ++ ((demo_index.map Prod.fst).filter
          (fun w => strStartsWith w (pyLower "ch")
            && !(((["chess club", "math"] : List String).filter
              (fun s => strContains (pyLower s) (pyLower "ch"))).contains w)))).take 5 :=
  ⟨(claim_C9.1 { demo_engine with recent_searches := ["chess club", "math"] }).1,
   (claim_C9.2 { demo_engine with recent_searches := ["chess club", "math"] } "ch"
     (by decide) (by decide)).1⟩
